import Mathlib

/-!
Verification of the AlphaDec codec of the mcpclock repository.

The repository contains two implementations of the codec:
* `src/src/lib/alphadec.js` — the division-cascade implementation, embedded
  below in namespace `Cascade`;
* an unnamed sibling file (part_000) — the beat-index implementation,
  embedded below in namespace `BeatIndex`.

A UTC instant is modelled as the pair of its UTC calendar year
`y = d.getUTCFullYear()` and `t`, the milliseconds elapsed since the true
start of that year; validity of the instant is the hypothesis
`t < yearTotalMs y`.  The offset the source actually computes is
`d.getTime() - Date.UTC(y, 0, 1)`, and ECMAScript's `Date.UTC` maps a year
argument 0–99 to `1900 + y`, so for years 0–99 that offset is negative:
it is embedded as the signed quantity `msSinceYearStartJS y t`, and each
encode is embedded both on the signed offset (`encodeZ`, with BigInt
division truncating toward zero, and `encodeDate` composing it with the
offset) and, for the nonnegative branch the two agree on
(`encodeZF_ofNat`, `encodeZBF_ofNat`), as exact `Nat` arithmetic (`encode`).  JavaScript
number→string conversion is embedded by `natDecimal`;
`new Date(startOfYearMs + ms)` is embedded as the pair `(year, ms)`.
-/

/-- `_SCALER_N = 1_000_000n`, the shared scaling factor of both files. -/
def SCALER_N : Nat := 1000000

/-- `BEATS_IN_YEAR = 67600n` from the beat-index implementation. -/
def BEATS_IN_YEAR : Nat := 67600

/-- The leap-year predicate `(y % 4 === 0 && y % 100 !== 0) || y % 400 === 0`
used identically in both files (proleptic Gregorian rule, for `y ≥ 0`). -/
def isLeap (y : Nat) : Bool := (y % 4 == 0 && y % 100 != 0) || y % 400 == 0

/-- `daysInYear = isLeap ? 366 : 365` as in both files. -/
def daysInYear (y : Nat) : Nat := if isLeap y then 366 else 365

/-- `yearTotalMs = daysInYear × 86_400_000`: the length in milliseconds of
calendar year `y` (milliseconds from `Date.UTC(y,0,1)` to `Date.UTC(y+1,0,1)`). -/
def yearTotalMs (y : Nat) : Nat := daysInYear y * 86400000

/-- `String.fromCharCode(65 + n)`: the base-26 letter with index `n`. -/
def letterChar (n : Nat) : Char := Char.ofNat (65 + n)

/-- The decimal digit character for `d ≤ 9` (code unit `48 + d`). -/
def digitChar (d : Nat) : Char := Char.ofNat (48 + d)

/-- `_toBase26(n)` on a nonnegative index: renders `n` as a letter `A`–`Z`,
failing with the defensive invalid-index error when `25 < n`.  The full
signed guard of the source (`n < 0 || n > 25`), needed on the negative
offsets produced by `Date.UTC`'s two-digit-year rule, is
`Cascade.toBase26Z` / `BeatIndex.toBase26Z` below. -/
def toBase26 (n : Nat) : Except String Char :=
  if 25 < n then Except.error "Invalid index for Base26 single char conversion."
  else Except.ok (letterChar n)

/-- Fuel-driven helper for `natDecimal`; the fuel is only a termination
device, `natDecimal` always supplies enough of it. -/
def natDecimalAux : Nat → Nat → List Char
  | 0, _ => []
  | fuel + 1, n =>
    if n < 10 then [digitChar n]
    else natDecimalAux fuel (n / 10) ++ [digitChar (n % 10)]

/-- JavaScript number→string conversion `String(n)` (equivalently the
template-literal interpolation of the source) for a nonnegative integer:
the decimal digits of `n`, without leading zeros (`"0"` for `0`). -/
def natDecimal (n : Nat) : List Char := natDecimalAux (n + 1) n

/-- `str.padStart(w, c)` of JavaScript, on the character list of `str`. -/
def padStart (w : Nat) (c : Char) (l : List Char) : List Char :=
  List.replicate (w - l.length) c ++ l

/-- The structured result of `encode` (identical field list in both files). -/
structure EncodeResult where
  canonical : String
  year : Nat
  period : Nat
  arc : Nat
  bar : Nat
  beat : Nat
  msOffsetInBeat : Nat
  periodLetter : Char
  barLetter : Char
  readable : String
  arcStartMsInYear : Nat
  arcEndMsInYear : Nat
  deriving Repr, DecidableEq

/-- JavaScript `Number(str)` on a string of decimal digits: the usual
left fold (`"2025"` ↦ `2025`). -/
def digitsVal (l : List Char) : Nat :=
  l.foldl (fun acc c => 10 * acc + (c.toNat - 48)) 0

/-- Is `c` in the regex class `\d` = `[0-9]`? -/
def isDigitCh (c : Char) : Bool := decide ('0' ≤ c) && decide (c ≤ '9')

/-- Is `c` in the regex class `[A-Z]`? -/
def isUpperCh (c : Char) : Bool := decide ('A' ≤ c) && decide (c ≤ 'Z')

/-- The anchored canonical-format regex `^\d{4}_[A-Z]\d[A-Z]\d_\d{6}$`,
as a Boolean shape predicate on the whole input string. -/
def canonShape (s : String) : Bool :=
  match s.data with
  | [y1, y2, y3, y4, u1, pc, ac, bc, tc, u2, m1, m2, m3, m4, m5, m6] =>
    isDigitCh y1 && isDigitCh y2 && isDigitCh y3 && isDigitCh y4 &&
    (u1 == '_') && isUpperCh pc && isDigitCh ac && isUpperCh bc &&
    isDigitCh tc && (u2 == '_') && isDigitCh m1 && isDigitCh m2 &&
    isDigitCh m3 && isDigitCh m4 && isDigitCh m5 && isDigitCh m6
  | _ => false

/-- `canon.match(/^(\d{4})_([A-Z])(\d)([A-Z])(\d)_([0-9]{6})$/)`: the parsed
capture groups of both decoders, already converted to numbers the way the
source converts them (`Number(yyyyStr)`, `charCodeAt(0) - 65`, `Number(...)`).
Returns `(year, pIndex, arcVal, barIndex, beatVal, msOffset)`; `none` when
the string does not match. -/
def parseCanonical (s : String) : Option (Nat × Nat × Nat × Nat × Nat × Nat) :=
  match s.data with
  | [y1, y2, y3, y4, u1, pc, ac, bc, tc, u2, m1, m2, m3, m4, m5, m6] =>
    if isDigitCh y1 && isDigitCh y2 && isDigitCh y3 && isDigitCh y4 &&
        (u1 == '_') && isUpperCh pc && isDigitCh ac && isUpperCh bc &&
        isDigitCh tc && (u2 == '_') && isDigitCh m1 && isDigitCh m2 &&
        isDigitCh m3 && isDigitCh m4 && isDigitCh m5 && isDigitCh m6 then
      some (digitsVal [y1, y2, y3, y4], pc.toNat - 65, digitsVal [ac],
        bc.toNat - 65, digitsVal [tc], digitsVal [m1, m2, m3, m4, m5, m6])
    else none
  | _ => none

namespace Cascade

/-- `periodSizeScaled = yearTotalScaledMs / 26n` of `alphadec.js`. -/
def periodSizeScaled (y : Nat) : Nat := yearTotalMs y * SCALER_N / 26

/-- `arcSizeScaled = periodSizeScaled / 10n`. -/
def arcSizeScaled (y : Nat) : Nat := periodSizeScaled y / 10

/-- `barSizeScaled = arcSizeScaled / 26n`. -/
def barSizeScaled (y : Nat) : Nat := arcSizeScaled y / 26

/-- `beatSizeScaled = barSizeScaled / 10n`. -/
def beatSizeScaled (y : Nat) : Nat := barSizeScaled y / 10

/-- `alphadec.encode` of `src/src/lib/alphadec.js`: the division cascade on
`totalScaledMsSinceYearStart = msSinceYearStart × SCALER_N`, subtracting
`p_idx × periodSizeScaled`, `a_val × arcSizeScaled`, `b_idx × barSizeScaled`
and `t_val × beatSizeScaled` in turn.  The two `_toBase26` calls are the
only failure points. -/
def encode (y t : Nat) : Except String EncodeResult :=
  let totalScaledMsSinceYearStart := t * SCALER_N
  let pS := periodSizeScaled y
  let aS := arcSizeScaled y
  let bS := barSizeScaled y
  let tS := beatSizeScaled y
  let p_idx := totalScaledMsSinceYearStart / pS
  let rem1 := totalScaledMsSinceYearStart - p_idx * pS
  let a_val := rem1 / aS
  let rem2 := rem1 - a_val * aS
  let currentArcStartScaledMs := p_idx * pS + a_val * aS
  let arcStartMsInYear := currentArcStartScaledMs / SCALER_N
  let arcEndMsInYear := (currentArcStartScaledMs + aS) / SCALER_N
  let b_idx := rem2 / bS
  let rem3 := rem2 - b_idx * bS
  let t_val := rem3 / tS
  let rem4 := rem3 - t_val * tS
  let msOffsetInBeat := rem4 / SCALER_N
  do
    let periodLetter ← toBase26 p_idx
    let barLetter ← toBase26 b_idx
    let canonicalMsPart := padStart 6 '0' (natDecimal msOffsetInBeat)
    let canonical := String.mk
      (natDecimal y ++ '_' :: periodLetter :: natDecimal a_val ++
        barLetter :: natDecimal t_val ++ '_' :: canonicalMsPart)
    let readable := String.mk
      (periodLetter :: natDecimal a_val ++ ':' :: barLetter :: natDecimal t_val)
    Except.ok
      { canonical := canonical
        year := y
        period := p_idx
        arc := a_val
        bar := b_idx
        beat := t_val
        msOffsetInBeat := msOffsetInBeat
        periodLetter := periodLetter
        barLetter := barLetter
        readable := readable
        arcStartMsInYear := arcStartMsInYear
        arcEndMsInYear := arcEndMsInYear }

/-- The error message of `alphadec.decode` (it names the offending input). -/
def decodeErrMsg (s : String) : String :=
  "Bad AlphaDec canonical string (format YYYY_PaBt_MMMMMM): " ++ s

/-- `alphadec.decode` of `src/src/lib/alphadec.js`.  The returned
`new Date(startOfYearMs + totalMsSinceYearStart_final)` is embedded as the
pair `(year, totalMsSinceYearStart_final)`. -/
def decode (s : String) : Except String (Nat × Nat) :=
  match parseCanonical s with
  | none => Except.error (decodeErrMsg s)
  | some (year, pIndex, arcVal, barIndex, beatVal, msOffsetInBeat_input) =>
    let totalScaledMsFromUnits :=
      pIndex * periodSizeScaled year + arcVal * arcSizeScaled year +
      barIndex * barSizeScaled year + beatVal * beatSizeScaled year +
      msOffsetInBeat_input * SCALER_N
    Except.ok (year, totalScaledMsFromUnits / SCALER_N)

end Cascade

namespace BeatIndex

/-- `totalBeatIndex = (msSinceYearStart * BEATS_IN_YEAR) / yearTotalMs`
of the beat-index implementation. -/
def totalBeatIndex (y t : Nat) : Nat := t * BEATS_IN_YEAR / yearTotalMs y

/-- `beatStartScaledMs = (yearTotalMs * totalBeatIndex * SCALER_N) / BEATS_IN_YEAR`. -/
def beatStartScaledMs (y k : Nat) : Nat :=
  yearTotalMs y * k * SCALER_N / BEATS_IN_YEAR

/-- `alphadec.encode` of the unnamed sibling implementation (part_000):
computes the global beat index by one scaled division, then decomposes it by
`/ 2600n`, `% 2600n`, `/ 260n`, `% 260n`, `/ 10n`, `% 10n`. -/
def encode (y t : Nat) : Except String EncodeResult :=
  let k := totalBeatIndex y t
  let beatStart := beatStartScaledMs y k
  let totalScaledMs := t * SCALER_N
  let scaledMsOffset := totalScaledMs - beatStart
  let msOffsetInBeat := scaledMsOffset / SCALER_N
  let p_idx := k / 2600
  let remainingBeats := k % 2600
  let a_val := remainingBeats / 260
  let remainingBeats2 := remainingBeats % 260
  let b_idx := remainingBeats2 / 10
  let t_val := remainingBeats2 % 10
  let currentArcStartBeats := p_idx * 2600 + a_val * 260
  let arcStartScaledMs :=
    yearTotalMs y * currentArcStartBeats * SCALER_N / BEATS_IN_YEAR
  let arcEndScaledMs :=
    yearTotalMs y * (currentArcStartBeats + 260) * SCALER_N / BEATS_IN_YEAR
  let arcStartMsInYear := arcStartScaledMs / SCALER_N
  let arcEndMsInYear := arcEndScaledMs / SCALER_N
  do
    let periodLetter ← toBase26 p_idx
    let barLetter ← toBase26 b_idx
    let canonicalMsPart := padStart 6 '0' (natDecimal msOffsetInBeat)
    let canonical := String.mk
      (natDecimal y ++ '_' :: periodLetter :: natDecimal a_val ++
        barLetter :: natDecimal t_val ++ '_' :: canonicalMsPart)
    let readable := String.mk
      (periodLetter :: natDecimal a_val ++ ':' :: barLetter :: natDecimal t_val)
    Except.ok
      { canonical := canonical
        year := y
        period := p_idx
        arc := a_val
        bar := b_idx
        beat := t_val
        msOffsetInBeat := msOffsetInBeat
        periodLetter := periodLetter
        barLetter := barLetter
        readable := readable
        arcStartMsInYear := arcStartMsInYear
        arcEndMsInYear := arcEndMsInYear }

/-- The error message of the beat-index `decode`. -/
def decodeErrMsg (s : String) : String :=
  "Bad AlphaDec canonical string: " ++ s

/-- `alphadec.decode` of the beat-index implementation: reassembles the
total beat count and floors `yearTotalScaledMs * totalBeats / BEATS_IN_YEAR`. -/
def decode (s : String) : Except String (Nat × Nat) :=
  match parseCanonical s with
  | none => Except.error (decodeErrMsg s)
  | some (year, pIndex, arcVal, barIndex, beatVal, msVal) =>
    let yearTotalScaledMs := yearTotalMs year * SCALER_N
    let totalBeats := pIndex * 2600 + arcVal * 260 + barIndex * 10 + beatVal
    let beatStart := yearTotalScaledMs * totalBeats / BEATS_IN_YEAR
    let totalScaledMs := beatStart + msVal * SCALER_N
    Except.ok (year, totalScaledMs / SCALER_N)

end BeatIndex

namespace Cascade

def p_idxF (y t : Nat) : Nat := t * SCALER_N / periodSizeScaled y

def rem1F (y t : Nat) : Nat := t * SCALER_N % periodSizeScaled y

def a_valF (y t : Nat) : Nat := rem1F y t / arcSizeScaled y

def rem2F (y t : Nat) : Nat := rem1F y t % arcSizeScaled y

def b_idxF (y t : Nat) : Nat := rem2F y t / barSizeScaled y

def rem3F (y t : Nat) : Nat := rem2F y t % barSizeScaled y

def t_valF (y t : Nat) : Nat := rem3F y t / beatSizeScaled y

def rem4F (y t : Nat) : Nat := rem3F y t % beatSizeScaled y

def msF (y t : Nat) : Nat := rem4F y t / SCALER_N

def resultF (y t : Nat) : EncodeResult :=
  { canonical := String.mk
      (natDecimal y ++ '_' :: letterChar (p_idxF y t) :: natDecimal (a_valF y t) ++
        letterChar (b_idxF y t) :: natDecimal (t_valF y t) ++ '_' ::
        padStart 6 '0' (natDecimal (msF y t)))
    year := y
    period := p_idxF y t
    arc := a_valF y t
    bar := b_idxF y t
    beat := t_valF y t
    msOffsetInBeat := msF y t
    periodLetter := letterChar (p_idxF y t)
    barLetter := letterChar (b_idxF y t)
    readable := String.mk
      (letterChar (p_idxF y t) :: natDecimal (a_valF y t) ++ ':' ::
        letterChar (b_idxF y t) :: natDecimal (t_valF y t))
    arcStartMsInYear :=
      (p_idxF y t * periodSizeScaled y + a_valF y t * arcSizeScaled y) / SCALER_N
    arcEndMsInYear :=
      (p_idxF y t * periodSizeScaled y + a_valF y t * arcSizeScaled y +
        arcSizeScaled y) / SCALER_N }

end Cascade

namespace BeatIndex

def msBF (y t : Nat) : Nat :=
  (t * SCALER_N - beatStartScaledMs y (totalBeatIndex y t)) / SCALER_N

def resultBF (y t : Nat) : EncodeResult :=
  { canonical := String.mk
      (natDecimal y ++ '_' :: letterChar (totalBeatIndex y t / 2600) ::
        natDecimal (totalBeatIndex y t % 2600 / 260) ++
        letterChar (totalBeatIndex y t % 2600 % 260 / 10) ::
        natDecimal (totalBeatIndex y t % 2600 % 260 % 10) ++ '_' ::
        padStart 6 '0' (natDecimal (msBF y t)))
    year := y
    period := totalBeatIndex y t / 2600
    arc := totalBeatIndex y t % 2600 / 260
    bar := totalBeatIndex y t % 2600 % 260 / 10
    beat := totalBeatIndex y t % 2600 % 260 % 10
    msOffsetInBeat := msBF y t
    periodLetter := letterChar (totalBeatIndex y t / 2600)
    barLetter := letterChar (totalBeatIndex y t % 2600 % 260 / 10)
    readable := String.mk
      (letterChar (totalBeatIndex y t / 2600) ::
        natDecimal (totalBeatIndex y t % 2600 / 260) ++ ':' ::
        letterChar (totalBeatIndex y t % 2600 % 260 / 10) ::
        natDecimal (totalBeatIndex y t % 2600 % 260 % 10))
    arcStartMsInYear :=
      yearTotalMs y * (totalBeatIndex y t / 2600 * 2600 +
        totalBeatIndex y t % 2600 / 260 * 260) * SCALER_N / BEATS_IN_YEAR / SCALER_N
    arcEndMsInYear :=
      yearTotalMs y * (totalBeatIndex y t / 2600 * 2600 +
        totalBeatIndex y t % 2600 / 260 * 260 + 260) * SCALER_N / BEATS_IN_YEAR /
        SCALER_N }

end BeatIndex

/-! ### The `Date.UTC` offset actually computed by the source

Both encodes reach their arithmetic through
`msSinceYearStart = d.getTime() - Date.UTC(y, 0, 1)` with
`y = d.getUTCFullYear()`.  ECMAScript's `Date.UTC` maps a year argument
`0–99` to `1900 + y` (`MakeFullYear`), so for instants of calendar years
0–99 this offset is hugely negative and the BigInt cascade runs on negative
values.  `encodeZ` below embeds each encode on the signed offset (BigInt
division and remainder truncate toward zero: `Int.tdiv`, `Int.tmod`), and
`encodeDate` composes it with the offset the source computes. -/

/-- Leap years in `[0, y)` under the rule `isLeap`: multiples of 4, minus
multiples of 100, plus multiples of 400. -/
def leapsBefore (y : Nat) : Nat := (y + 3) / 4 - (y + 99) / 100 + (y + 399) / 400

/-- Days from the start of proleptic-Gregorian year 0 to the start of year
`y` (the day count underlying `Date.UTC(y, 0, 1)`): consecutive differences
are `365 + isLeap y`. -/
def yearStartDays (y : Nat) : Nat := 365 * y + leapsBefore y

/-- The year `Date.UTC(y, 0, 1)` actually places its result in:
`MakeFullYear` maps `0 ≤ y ≤ 99` to `1900 + y`; larger years pass through. -/
def dateUTCYear (y : Nat) : Nat := if y ≤ 99 then 1900 + y else y

/-- `d.getTime() - Date.UTC(y, 0, 1)` for the instant lying `t` milliseconds
after the true start of calendar year `y = d.getUTCFullYear()`: `t` minus
the millisecond distance from the start of year `y` to the start of year
`dateUTCYear y` (negative for `y ≤ 99`, equal to `t` otherwise). -/
def msSinceYearStartJS (y t : Nat) : Int :=
  (t : Int) -
    ((yearStartDays (dateUTCYear y) : Int) - (yearStartDays y : Int)) * 86400000

namespace Cascade

/-- `_toBase26(Number(n))` of `alphadec.js` on a signed BigInt index: the
full defensive guard `n < 0 || n > 25` of the source. -/
def toBase26Z (n : Int) : Except String Char :=
  if n < 0 ∨ 25 < n then
    Except.error "Invalid index for Base26 single char conversion."
  else Except.ok (letterChar n.toNat)

/-- `alphadec.encode` of `src/src/lib/alphadec.js` on the signed BigInt
offset `ms = d.getTime() - Date.UTC(y, 0, 1)` (the true calendar year `y`
fixes the subdivision sizes).  BigInt division truncates toward zero
(`Int.tdiv`); the `Number(...)` conversions into the result record are
embedded by `Int.toNat`, exact on every branch reachable from an instant
(`encodeZF_ofNat`, `encodeDateF_err`). -/
def encodeZ (y : Nat) (ms : Int) : Except String EncodeResult :=
  let totalScaledMsSinceYearStart := ms * (SCALER_N : Int)
  let pS : Int := (periodSizeScaled y : Int)
  let aS : Int := (arcSizeScaled y : Int)
  let bS : Int := (barSizeScaled y : Int)
  let tS : Int := (beatSizeScaled y : Int)
  let p_idx := totalScaledMsSinceYearStart.tdiv pS
  let rem1 := totalScaledMsSinceYearStart - p_idx * pS
  let a_val := rem1.tdiv aS
  let rem2 := rem1 - a_val * aS
  let currentArcStartScaledMs := p_idx * pS + a_val * aS
  let arcStartMsInYear := currentArcStartScaledMs.tdiv (SCALER_N : Int)
  let arcEndMsInYear := (currentArcStartScaledMs + aS).tdiv (SCALER_N : Int)
  let b_idx := rem2.tdiv bS
  let rem3 := rem2 - b_idx * bS
  let t_val := rem3.tdiv tS
  let rem4 := rem3 - t_val * tS
  let msOffsetInBeat := rem4.tdiv (SCALER_N : Int)
  do
    let periodLetter ← toBase26Z p_idx
    let barLetter ← toBase26Z b_idx
    let canonicalMsPart := padStart 6 '0' (natDecimal msOffsetInBeat.toNat)
    let canonical := String.mk
      (natDecimal y ++ '_' :: periodLetter :: natDecimal a_val.toNat ++
        barLetter :: natDecimal t_val.toNat ++ '_' :: canonicalMsPart)
    let readable := String.mk
      (periodLetter :: natDecimal a_val.toNat ++ ':' :: barLetter ::
        natDecimal t_val.toNat)
    Except.ok
      { canonical := canonical
        year := y
        period := p_idx.toNat
        arc := a_val.toNat
        bar := b_idx.toNat
        beat := t_val.toNat
        msOffsetInBeat := msOffsetInBeat.toNat
        periodLetter := periodLetter
        barLetter := barLetter
        readable := readable
        arcStartMsInYear := arcStartMsInYear.toNat
        arcEndMsInYear := arcEndMsInYear.toNat }

/-- The full `alphadec.encode` of `alphadec.js` on an instant (true calendar
year `y`, `t` ms after the true start of year `y`): the source computes its
offset through `Date.UTC`, with the two-digit-year rule. -/
def encodeDate (y t : Nat) : Except String EncodeResult :=
  encodeZ y (msSinceYearStartJS y t)

end Cascade

namespace BeatIndex

/-- `_toBase26(Number(n))` of the beat-index file on a signed BigInt index,
with that file's own error message. -/
def toBase26Z (n : Int) : Except String Char :=
  if n < 0 ∨ 25 < n then Except.error "Invalid index for Base26."
  else Except.ok (letterChar n.toNat)

/-- `alphadec.encode` of the beat-index file (part_000) on the signed BigInt
offset `ms = d.getTime() - Date.UTC(y, 0, 1)`.  BigInt `/` and `%` truncate
toward zero (`Int.tdiv`, `Int.tmod`); `Number(...)` conversions into the
result record are embedded by `Int.toNat`, exact on every branch reachable
from an instant (`encodeZBF_ofNat`, `encodeDateBF_err`). -/
def encodeZ (y : Nat) (ms : Int) : Except String EncodeResult :=
  let yT : Int := (yearTotalMs y : Int)
  let k := (ms * (BEATS_IN_YEAR : Int)).tdiv yT
  let beatStart := (yT * k * (SCALER_N : Int)).tdiv (BEATS_IN_YEAR : Int)
  let totalScaledMs := ms * (SCALER_N : Int)
  let scaledMsOffset := totalScaledMs - beatStart
  let msOffsetInBeat := scaledMsOffset.tdiv (SCALER_N : Int)
  let p_idx := k.tdiv 2600
  let remainingBeats := k.tmod 2600
  let a_val := remainingBeats.tdiv 260
  let remainingBeats2 := remainingBeats.tmod 260
  let b_idx := remainingBeats2.tdiv 10
  let t_val := remainingBeats2.tmod 10
  let currentArcStartBeats := p_idx * 2600 + a_val * 260
  let arcStartScaledMs :=
    (yT * currentArcStartBeats * (SCALER_N : Int)).tdiv (BEATS_IN_YEAR : Int)
  let arcEndScaledMs :=
    (yT * (currentArcStartBeats + 260) * (SCALER_N : Int)).tdiv (BEATS_IN_YEAR : Int)
  let arcStartMsInYear := arcStartScaledMs.tdiv (SCALER_N : Int)
  let arcEndMsInYear := arcEndScaledMs.tdiv (SCALER_N : Int)
  do
    let periodLetter ← toBase26Z p_idx
    let barLetter ← toBase26Z b_idx
    let canonicalMsPart := padStart 6 '0' (natDecimal msOffsetInBeat.toNat)
    let canonical := String.mk
      (natDecimal y ++ '_' :: periodLetter :: natDecimal a_val.toNat ++
        barLetter :: natDecimal t_val.toNat ++ '_' :: canonicalMsPart)
    let readable := String.mk
      (periodLetter :: natDecimal a_val.toNat ++ ':' :: barLetter ::
        natDecimal t_val.toNat)
    Except.ok
      { canonical := canonical
        year := y
        period := p_idx.toNat
        arc := a_val.toNat
        bar := b_idx.toNat
        beat := t_val.toNat
        msOffsetInBeat := msOffsetInBeat.toNat
        periodLetter := periodLetter
        barLetter := barLetter
        readable := readable
        arcStartMsInYear := arcStartMsInYear.toNat
        arcEndMsInYear := arcEndMsInYear.toNat }

/-- The full beat-index `alphadec.encode` on an instant, through the
`Date.UTC` offset. -/
def encodeDate (y t : Nat) : Except String EncodeResult :=
  encodeZ y (msSinceYearStartJS y t)

end BeatIndex

/-- Ceiling division on `Nat`. -/
def ceilDiv (x d : Nat) : Nat := (x + d - 1) / d

/-! ### The two beat grids

`sAv y k` is the scaled start of the cell that the division cascade of
`alphadec.js` assigns to mixed-radix beat index `k`; `k * YSv y / 67600`
(floored) is the scaled beat start used by the beat-index implementation. -/

/-- `yearTotalScaledMs` of both files. -/
def YSv (y : Nat) : Nat := yearTotalMs y * SCALER_N

/-- Scaled start of beat cell `k` under the division cascade: the mixed-radix
digits of `k` times the floored subdivision sizes. -/
def sAv (y k : Nat) : Nat :=
  k / 2600 * Cascade.periodSizeScaled y + k % 2600 / 260 * Cascade.arcSizeScaled y +
  k % 260 / 10 * Cascade.barSizeScaled y + k % 10 * Cascade.beatSizeScaled y

/-! ### Arithmetic helpers -/

theorem ceilDiv_le_iff {d : Nat} (hd : 0 < d) (x m : Nat) :
    ceilDiv x d ≤ m ↔ x ≤ d * m := by
  unfold ceilDiv
  rw [← Nat.lt_succ_iff, Nat.div_lt_iff_lt_mul hd]
  have h : (m + 1) * d = d * m + d := by ring
  rw [h]
  omega

theorem lt_ceilDiv_iff {d : Nat} (hd : 0 < d) (x m : Nat) :
    m < ceilDiv x d ↔ d * m < x := by
  have h := ceilDiv_le_iff hd x m
  omega

theorem div_le_ceilDiv {d : Nat} (hd : 0 < d) (x : Nat) :
    x / d ≤ ceilDiv x d := by
  unfold ceilDiv
  exact Nat.div_le_div_right (by omega)

theorem ceilDiv_le_div_succ {d : Nat} (hd : 0 < d) (x : Nat) :
    ceilDiv x d ≤ x / d + 1 := by
  rw [ceilDiv_le_iff hd]
  have h := Nat.lt_div_mul_add (a := x) hd
  have h2 : x / d * d = d * (x / d) := by ring
  have h3 : d * (x / d + 1) = d * (x / d) + d := by ring
  omega

/-- The floored subtraction-then-division step shared by both codecs:
for `x ≤ t * d`, `(t * d - x) / d = t - ⌈x / d⌉`. -/
theorem sub_div_eq_sub_ceilDiv {d : Nat} (hd : 0 < d) (t x : Nat) (hx : x ≤ t * d) :
    (t * d - x) / d = t - ceilDiv x d := by
  obtain ⟨q, u, hqu, hu⟩ : ∃ q u, x = d * q + u ∧ u < d :=
    ⟨x / d, x % d, by have := Nat.div_add_mod x d; omega, Nat.mod_lt _ hd⟩
  have hqt : q ≤ t := by
    by_contra hcon
    have h1 : t + 1 ≤ q := by omega
    have h2 : d * (t + 1) ≤ d * q := Nat.mul_le_mul_left d h1
    have h3 : d * (t + 1) = d * t + d := by ring
    have ht : t * d = d * t := by ring
    omega
  rcases Nat.eq_zero_or_pos u with hu0 | hu0
  · have hceil : ceilDiv x d = q := by
      have h1 : ceilDiv x d ≤ q := by rw [ceilDiv_le_iff hd]; omega
      have h2 : q ≤ ceilDiv x d := by
        rcases Nat.eq_zero_or_pos q with h | h
        · omega
        · have := (lt_ceilDiv_iff hd x (q - 1)).2 (by
            have : d * (q - 1) + d = d * q := by
              have hq1 : q - 1 + 1 = q := by omega
              calc d * (q - 1) + d = d * (q - 1 + 1) := by ring
                _ = d * q := by rw [hq1]
            omega)
          omega
      omega
    have hsub : t * d - x = d * (t - q) := by
      have h : d * (t - q) + d * q = d * t := by
        have : d * (t - q) + d * q = d * (t - q + q) := by ring
        rw [this]; congr 1; omega
      have ht : t * d = d * t := by ring
      omega
    rw [hsub, hceil, Nat.mul_div_cancel_left _ hd]
  · have hqt1 : q < t := by
      by_contra hcon
      have hqe : q = t := by omega
      rw [hqe] at hqu
      have ht : t * d = d * t := by ring
      omega
    have hceil : ceilDiv x d = q + 1 := by
      have h1 : ceilDiv x d ≤ q + 1 := by
        rw [ceilDiv_le_iff hd]
        have : d * (q + 1) = d * q + d := by ring
        omega
      have h2 := (lt_ceilDiv_iff hd x q).2 (by omega)
      omega
    have hsub : t * d - x = d * (t - q - 1) + (d - u) := by
      have h : d * (t - q - 1) + d * q + d = d * t := by
        have e : d * (t - q - 1) + d * q + d = d * (t - q - 1 + q + 1) := by ring
        rw [e]; congr 1; omega
      have ht : t * d = d * t := by ring
      omega
    rw [hsub, hceil]
    have : (d * (t - q - 1) + (d - u)) / d = (d - u) / d + (t - q - 1) := by
      have e : d * (t - q - 1) + (d - u) = d - u + d * (t - q - 1) := by ring
      rw [e, Nat.add_mul_div_left _ _ hd]
    rw [this, Nat.div_eq_of_lt (by omega)]
    omega

/-- Division sandwich: `d * q ≤ x < d * (q + 1)` pins `x / d = q`. -/
theorem div_eq_digit {d : Nat} (x q : Nat) (lo : d * q ≤ x) (hi : x < d * (q + 1)) :
    x / d = q := by
  have hd : 0 < d := by
    rcases Nat.eq_zero_or_pos d with h | h
    · subst h; omega
    · exact h
  have h1 : x / d < q + 1 := by
    rw [Nat.div_lt_iff_lt_mul hd]
    have : (q + 1) * d = d * (q + 1) := by ring
    omega
  have h2 : q ≤ x / d := by
    rw [Nat.le_div_iff_mul_le hd]
    have : q * d = d * q := by ring
    omega
  omega

theorem mod_eq_sub_div_mul (a b : Nat) : a - a / b * b = a % b := by
  have := Nat.div_add_mod a b
  have h : b * (a / b) = a / b * b := by ring
  omega

/-! ### Year facts -/

theorem yearTotalMs_pos (y : Nat) : 0 < yearTotalMs y := by
  unfold yearTotalMs daysInYear
  rcases isLeap y <;> simp

theorem yearTotalMs_le (y : Nat) : yearTotalMs y ≤ 366 * 86400000 := by
  unfold yearTotalMs daysInYear
  rcases isLeap y <;> simp

theorem dvd400_yearTotalMs (y : Nat) : 400 ∣ yearTotalMs y :=
  ⟨daysInYear y * 216000, by unfold yearTotalMs; ring⟩

theorem dvd400_mul_beats (t : Nat) : 400 ∣ t * BEATS_IN_YEAR :=
  ⟨t * 169, by unfold BEATS_IN_YEAR; ring⟩

/-- Two multiples of 400 that differ, differ by at least 400. -/
theorem gap400 {a b : Nat} (ha : 400 ∣ a) (hb : 400 ∣ b) (h : a < b) :
    a + 400 ≤ b := by
  obtain ⟨x, rfl⟩ := ha
  obtain ⟨z, rfl⟩ := hb
  omega

/-- Polynomial identity behind the cascade: with the four remainder
decompositions and the mixed-radix decomposition of `k`, the scaled total
`k * YS` splits into `67600` cascade cells plus an explicit error term. -/
theorem cascade_identity (P A B Bt s0 s1 s2 s3 p a b tt YS k : Nat)
    (hYS : YS = 26 * P + s0) (hP : P = 10 * A + s1) (hA : A = 26 * B + s2)
    (hB : B = 10 * Bt + s3) (hk : k = 2600 * p + 260 * a + 10 * b + tt) :
    k * YS = 67600 * (p * P + a * A + b * B + tt * Bt) +
      (k * s0 + 6760 * (a * s1) + 260 * (b * (10 * s2 + s1)) +
        26 * (tt * (260 * s3 + 10 * s2 + s1))) := by
  subst hB
  subst hA
  subst hP
  subst hYS
  subst hk
  ring

/-- Bound on the error term of `cascade_identity` for in-range digits. -/
theorem cascade_error_le (s0 s1 s2 s3 a b tt k : Nat) (hs0 : s0 ≤ 25)
    (hs1 : s1 ≤ 9) (hs2 : s2 ≤ 25) (hs3 : s3 ≤ 9) (ha : a ≤ 9) (hb : b ≤ 25)
    (htt : tt ≤ 9) (hk : k ≤ 67600) :
    k * s0 + 6760 * (a * s1) + 260 * (b * (10 * s2 + s1)) +
      26 * (tt * (260 * s3 + 10 * s2 + s1)) ≤ 4596800 := by
  have h1 : k * s0 ≤ 67600 * 25 := Nat.mul_le_mul hk hs0
  have h2 : a * s1 ≤ 9 * 9 := Nat.mul_le_mul ha hs1
  have h3 : b * (10 * s2 + s1) ≤ 25 * 259 := Nat.mul_le_mul hb (by omega)
  have h4 : tt * (260 * s3 + 10 * s2 + s1) ≤ 9 * 2599 := Nat.mul_le_mul htt (by omega)
  omega

/-- The scaled cascade cell start brackets the exact beat boundary
`k * YS / 67600` from below, within `4596800` scaled units. -/
theorem sAv_sandwich (y k : Nat) (hk : k ≤ 67600) :
    67600 * sAv y k ≤ k * YSv y ∧
    k * YSv y ≤ 67600 * sAv y k + 4596800 := by
  have hYS : YSv y = 26 * Cascade.periodSizeScaled y + YSv y % 26 := by
    have h := Nat.div_add_mod (YSv y) 26
    have hP : Cascade.periodSizeScaled y = YSv y / 26 := rfl
    omega
  have hP : Cascade.periodSizeScaled y =
      10 * Cascade.arcSizeScaled y + Cascade.periodSizeScaled y % 10 := by
    have h := Nat.div_add_mod (Cascade.periodSizeScaled y) 10
    have hA : Cascade.arcSizeScaled y = Cascade.periodSizeScaled y / 10 := rfl
    omega
  have hA : Cascade.arcSizeScaled y =
      26 * Cascade.barSizeScaled y + Cascade.arcSizeScaled y % 26 := by
    have h := Nat.div_add_mod (Cascade.arcSizeScaled y) 26
    have hB : Cascade.barSizeScaled y = Cascade.arcSizeScaled y / 26 := rfl
    omega
  have hB : Cascade.barSizeScaled y =
      10 * Cascade.beatSizeScaled y + Cascade.barSizeScaled y % 10 := by
    have h := Nat.div_add_mod (Cascade.barSizeScaled y) 10
    have hBt : Cascade.beatSizeScaled y = Cascade.barSizeScaled y / 10 := rfl
    omega
  have hkd : k = 2600 * (k / 2600) + 260 * (k % 2600 / 260) + 10 * (k % 260 / 10) +
      k % 10 := by omega
  have hid := cascade_identity (Cascade.periodSizeScaled y) (Cascade.arcSizeScaled y)
    (Cascade.barSizeScaled y) (Cascade.beatSizeScaled y)
    (YSv y % 26) (Cascade.periodSizeScaled y % 10) (Cascade.arcSizeScaled y % 26)
    (Cascade.barSizeScaled y % 10) (k / 2600) (k % 2600 / 260) (k % 260 / 10)
    (k % 10) (YSv y) k hYS hP hA hB hkd
  have hE := cascade_error_le (YSv y % 26) (Cascade.periodSizeScaled y % 10)
    (Cascade.arcSizeScaled y % 26) (Cascade.barSizeScaled y % 10)
    (k % 2600 / 260) (k % 260 / 10) (k % 10) k
    (by omega) (by omega) (by omega) (by omega) (by omega) (by omega) (by omega) hk
  have hsA : sAv y k = k / 2600 * Cascade.periodSizeScaled y +
      k % 2600 / 260 * Cascade.arcSizeScaled y +
      k % 260 / 10 * Cascade.barSizeScaled y +
      k % 10 * Cascade.beatSizeScaled y := rfl
  have hcomm : k / 2600 * Cascade.periodSizeScaled y +
      k % 2600 / 260 * Cascade.arcSizeScaled y +
      k % 260 / 10 * Cascade.barSizeScaled y +
      k % 10 * Cascade.beatSizeScaled y =
      k / 2600 * Cascade.periodSizeScaled y + k % 2600 / 260 * Cascade.arcSizeScaled y +
      k % 260 / 10 * Cascade.barSizeScaled y + k % 10 * Cascade.beatSizeScaled y := rfl
  rw [hsA]
  have he : k / 2600 * Cascade.periodSizeScaled y + k % 2600 / 260 * Cascade.arcSizeScaled y +
      k % 260 / 10 * Cascade.barSizeScaled y + k % 10 * Cascade.beatSizeScaled y =
      Cascade.periodSizeScaled y * (k / 2600) + Cascade.arcSizeScaled y * (k % 2600 / 260) +
      Cascade.barSizeScaled y * (k % 260 / 10) + Cascade.beatSizeScaled y * (k % 10) := by
    ring
  omega

/-! ### Beat-index bracketing -/

theorem totalBeatIndex_lt (y t : Nat) (ht : t < yearTotalMs y) :
    BeatIndex.totalBeatIndex y t < 67600 := by
  unfold BeatIndex.totalBeatIndex
  rw [Nat.div_lt_iff_lt_mul (yearTotalMs_pos y)]
  have hB : 0 < BEATS_IN_YEAR := by unfold BEATS_IN_YEAR; omega
  have h : t * BEATS_IN_YEAR < yearTotalMs y * BEATS_IN_YEAR :=
    (Nat.mul_lt_mul_right hB).2 ht
  have h2 : yearTotalMs y * BEATS_IN_YEAR = 67600 * yearTotalMs y := by
    unfold BEATS_IN_YEAR; ring
  omega

theorem totalBeatIndex_mul_le (y t : Nat) :
    BeatIndex.totalBeatIndex y t * yearTotalMs y ≤ t * BEATS_IN_YEAR :=
  Nat.div_mul_le_self _ _

theorem lt_totalBeatIndex_succ (y t : Nat) :
    t * BEATS_IN_YEAR < (BeatIndex.totalBeatIndex y t + 1) * yearTotalMs y := by
  have h := Nat.lt_div_mul_add (a := t * BEATS_IN_YEAR) (yearTotalMs_pos y)
  have h2 : t * BEATS_IN_YEAR / yearTotalMs y * yearTotalMs y + yearTotalMs y =
      (BeatIndex.totalBeatIndex y t + 1) * yearTotalMs y := by
    unfold BeatIndex.totalBeatIndex; ring
  omega

/-- Core gap argument: a valid instant strictly before cascade-cell boundary
`kh` stays at least `100` scaled units before any point within `100` of that
boundary: divisibility by 400 of both `t * 67600` and `kh * yearTotalMs`
leaves no room closer than `400` whole milliseconds scaled. -/
theorem T_lt_bound (y t : Nat) (kh X : Nat)
    (hk : kh ≤ 67600) (hlt : BeatIndex.totalBeatIndex y t < kh)
    (hsl : sAv y kh ≤ X + 100) : t * SCALER_N < X := by
  by_contra hX
  push_neg at hX
  have h1 := (sAv_sandwich y kh hk).2
  have h3 : 67600 * sAv y kh ≤ 67600 * (t * SCALER_N + 100) :=
    Nat.mul_le_mul_left 67600 (by omega)
  have h3e : 67600 * (t * SCALER_N + 100) = 67600 * (t * SCALER_N) + 6760000 := by
    ring
  have h4 : t * BEATS_IN_YEAR < kh * yearTotalMs y := by
    have ha := lt_totalBeatIndex_succ y t
    have hb : (BeatIndex.totalBeatIndex y t + 1) * yearTotalMs y ≤
        kh * yearTotalMs y :=
      Nat.mul_le_mul_right _ (by omega)
    omega
  have h5 : t * BEATS_IN_YEAR + 400 ≤ kh * yearTotalMs y :=
    gap400 (dvd400_mul_beats t) (Dvd.dvd.mul_left (dvd400_yearTotalMs y) kh) h4
  have h6 : (t * BEATS_IN_YEAR + 400) * SCALER_N ≤
      kh * yearTotalMs y * SCALER_N :=
    Nat.mul_le_mul_right _ h5
  have h7 : kh * YSv y = kh * yearTotalMs y * SCALER_N := by
    unfold YSv; ring
  have h8 : (t * BEATS_IN_YEAR + 400) * SCALER_N =
      67600 * (t * SCALER_N) + 400000000 := by
    unfold BEATS_IN_YEAR SCALER_N; ring
  omega

/-- The cascade cell start of the current beat never exceeds the scaled
instant. -/
theorem sAv_le_T (y t : Nat) (ht : t < yearTotalMs y) :
    sAv y (BeatIndex.totalBeatIndex y t) ≤ t * SCALER_N := by
  have hk : BeatIndex.totalBeatIndex y t ≤ 67600 :=
    le_of_lt (totalBeatIndex_lt y t ht)
  have h1 := (sAv_sandwich y (BeatIndex.totalBeatIndex y t) hk).1
  have h2 : BeatIndex.totalBeatIndex y t * YSv y ≤ t * BEATS_IN_YEAR * SCALER_N := by
    have := totalBeatIndex_mul_le y t
    have h3 : BeatIndex.totalBeatIndex y t * YSv y =
        BeatIndex.totalBeatIndex y t * yearTotalMs y * SCALER_N := by
      unfold YSv; ring
    rw [h3]
    exact Nat.mul_le_mul_right _ this
  have h4 : t * BEATS_IN_YEAR * SCALER_N = 67600 * (t * SCALER_N) := by
    unfold BEATS_IN_YEAR; ring
  omega

/-- Evaluation of `sAv` at an explicit in-range digit tuple. -/
theorem sAv_digits_eval (y p a b tt : Nat) (ha : a ≤ 9) (hb : b ≤ 25)
    (htt : tt ≤ 9) (hp : p ≤ 25 ∨ (p = 26 ∧ a = 0 ∧ b = 0 ∧ tt = 0)) :
    sAv y (2600 * p + 260 * a + 10 * b + tt) =
      p * Cascade.periodSizeScaled y + a * Cascade.arcSizeScaled y +
      b * Cascade.barSizeScaled y + tt * Cascade.beatSizeScaled y := by
  unfold sAv
  have e1 : (2600 * p + 260 * a + 10 * b + tt) / 2600 = p := by omega
  have e2 : (2600 * p + 260 * a + 10 * b + tt) % 2600 / 260 = a := by omega
  have e3 : (2600 * p + 260 * a + 10 * b + tt) % 260 / 10 = b := by omega
  have e4 : (2600 * p + 260 * a + 10 * b + tt) % 10 = tt := by omega
  rw [e1, e2, e3, e4]

/-- Master agreement theorem: for a valid instant, the division cascade of
`alphadec.js` lands in exactly the beat cell of the beat index
`totalBeatIndex`, digit by digit, and its final remainder is the distance to
the cascade cell start. -/
theorem cascade_master (y t T k P A B Bt : Nat) (ht : t < yearTotalMs y)
    (hT : T = t * SCALER_N) (hk : k = BeatIndex.totalBeatIndex y t)
    (hP : P = Cascade.periodSizeScaled y) (hA : A = Cascade.arcSizeScaled y)
    (hB : B = Cascade.barSizeScaled y) (hBt : Bt = Cascade.beatSizeScaled y) :
    T / P = k / 2600 ∧ T % P / A = k % 2600 / 260 ∧
    T % P % A / B = k % 260 / 10 ∧ T % P % A % B / Bt = k % 10 ∧
    T % P % A % B % Bt = T - sAv y k := by
  have hklt : k < 67600 := by rw [hk]; exact totalBeatIndex_lt y t ht
  have hlow : sAv y k ≤ T := by rw [hk, hT]; exact sAv_le_T y t ht
  have hsAk : sAv y k = k / 2600 * P + k % 2600 / 260 * A + k % 260 / 10 * B +
      k % 10 * Bt := by
    rw [hP, hA, hB, hBt]; rfl
  have hA10 : A = P / 10 := by rw [hA, hP]; rfl
  have hB26 : B = A / 26 := by rw [hB, hA]; rfl
  have hBt10 : Bt = B / 10 := by rw [hBt, hB]; rfl
  have hPA : 10 * A + P % 10 = P := by
    have h := Nat.div_add_mod P 10
    rw [← hA10] at h; exact h
  have hAB : 26 * B + A % 26 = A := by
    have h := Nat.div_add_mod A 26
    rw [← hB26] at h; exact h
  have hBBt : 10 * Bt + B % 10 = B := by
    have h := Nat.div_add_mod B 10
    rw [← hBt10] at h; exact h
  have hs1 : P % 10 ≤ 9 := by omega
  have hs2 : A % 26 ≤ 25 := by omega
  have hs3 : B % 10 ≤ 9 := by omega
  -- level 1: period digit
  have hub1 : T < k / 2600 * P + P := by
    have h := T_lt_bound y t (2600 * (k / 2600 + 1) + 260 * 0 + 10 * 0 + 0)
      (k / 2600 * P + P) (by omega) (by omega) (by
        have he := sAv_digits_eval y (k / 2600 + 1) 0 0 0 (by omega) (by omega)
          (by omega) (by omega)
        rw [← hP, ← hA, ← hB, ← hBt] at he
        have hg : (k / 2600 + 1) * P = k / 2600 * P + P := by ring
        omega)
    omega
  have e1 : T / P = k / 2600 := by
    apply div_eq_digit
    · have hg : P * (k / 2600) = k / 2600 * P := by ring
      omega
    · have hg : P * (k / 2600 + 1) = k / 2600 * P + P := by ring
      omega
  have er1 : T % P = T - k / 2600 * P := by
    have h := mod_eq_sub_div_mul T P
    rw [e1] at h
    have hg : k / 2600 * P = P * (k / 2600) := by ring
    omega
  -- level 2: arc digit
  have hub2 : T < k / 2600 * P + k % 2600 / 260 * A + A := by
    rcases Nat.lt_or_ge (k % 2600 / 260) 9 with hc | hc
    · have h := T_lt_bound y t
        (2600 * (k / 2600) + 260 * (k % 2600 / 260 + 1) + 10 * 0 + 0)
        (k / 2600 * P + k % 2600 / 260 * A + A) (by omega) (by omega) (by
          have he := sAv_digits_eval y (k / 2600) (k % 2600 / 260 + 1) 0 0
            (by omega) (by omega) (by omega) (by omega)
          rw [← hP, ← hA, ← hB, ← hBt] at he
          have hg : (k % 2600 / 260 + 1) * A = k % 2600 / 260 * A + A := by ring
          omega)
      omega
    · have hc9 : k % 2600 / 260 = 9 := by omega
      have h := T_lt_bound y t (2600 * (k / 2600 + 1) + 260 * 0 + 10 * 0 + 0)
        (k / 2600 * P + k % 2600 / 260 * A + A) (by omega) (by omega) (by
          have he := sAv_digits_eval y (k / 2600 + 1) 0 0 0 (by omega) (by omega)
            (by omega) (by omega)
          rw [← hP, ← hA, ← hB, ← hBt] at he
          have hg : (k / 2600 + 1) * P = k / 2600 * P + P := by ring
          rw [hc9]
          omega)
      omega
  have e2 : T % P / A = k % 2600 / 260 := by
    apply div_eq_digit
    · have hg : A * (k % 2600 / 260) = k % 2600 / 260 * A := by ring
      omega
    · have hg : A * (k % 2600 / 260 + 1) = k % 2600 / 260 * A + A := by ring
      omega
  have er2 : T % P % A = T - k / 2600 * P - k % 2600 / 260 * A := by
    have h := mod_eq_sub_div_mul (T % P) A
    rw [e2] at h
    have hg : k % 2600 / 260 * A = A * (k % 2600 / 260) := by ring
    omega
  -- level 3: bar digit
  have hub3 : T < k / 2600 * P + k % 2600 / 260 * A + k % 260 / 10 * B + B := by
    rcases Nat.lt_or_ge (k % 260 / 10) 25 with hc | hc
    · have h := T_lt_bound y t
        (2600 * (k / 2600) + 260 * (k % 2600 / 260) + 10 * (k % 260 / 10 + 1) + 0)
        (k / 2600 * P + k % 2600 / 260 * A + k % 260 / 10 * B + B)
        (by omega) (by omega) (by
          have he := sAv_digits_eval y (k / 2600) (k % 2600 / 260)
            (k % 260 / 10 + 1) 0 (by omega) (by omega) (by omega) (by omega)
          rw [← hP, ← hA, ← hB, ← hBt] at he
          have hg : (k % 260 / 10 + 1) * B = k % 260 / 10 * B + B := by ring
          omega)
      omega
    · have hb25 : k % 260 / 10 = 25 := by omega
      rcases Nat.lt_or_ge (k % 2600 / 260) 9 with hc2 | hc2
      · have h := T_lt_bound y t
          (2600 * (k / 2600) + 260 * (k % 2600 / 260 + 1) + 10 * 0 + 0)
          (k / 2600 * P + k % 2600 / 260 * A + k % 260 / 10 * B + B)
          (by omega) (by omega) (by
            have he := sAv_digits_eval y (k / 2600) (k % 2600 / 260 + 1) 0 0
              (by omega) (by omega) (by omega) (by omega)
            rw [← hP, ← hA, ← hB, ← hBt] at he
            have hg : (k % 2600 / 260 + 1) * A = k % 2600 / 260 * A + A := by ring
            rw [hb25]
            omega)
        omega
      · have ha9 : k % 2600 / 260 = 9 := by omega
        have h := T_lt_bound y t (2600 * (k / 2600 + 1) + 260 * 0 + 10 * 0 + 0)
          (k / 2600 * P + k % 2600 / 260 * A + k % 260 / 10 * B + B)
          (by omega) (by omega) (by
            have he := sAv_digits_eval y (k / 2600 + 1) 0 0 0 (by omega)
              (by omega) (by omega) (by omega)
            rw [← hP, ← hA, ← hB, ← hBt] at he
            have hg : (k / 2600 + 1) * P = k / 2600 * P + P := by ring
            rw [hb25, ha9]
            omega)
        omega
  have e3 : T % P % A / B = k % 260 / 10 := by
    apply div_eq_digit
    · have hg : B * (k % 260 / 10) = k % 260 / 10 * B := by ring
      omega
    · have hg : B * (k % 260 / 10 + 1) = k % 260 / 10 * B + B := by ring
      omega
  have er3 : T % P % A % B =
      T - k / 2600 * P - k % 2600 / 260 * A - k % 260 / 10 * B := by
    have h := mod_eq_sub_div_mul (T % P % A) B
    rw [e3] at h
    have hg : k % 260 / 10 * B = B * (k % 260 / 10) := by ring
    omega
  -- level 4: beat digit
  have hub4 : T < k / 2600 * P + k % 2600 / 260 * A + k % 260 / 10 * B +
      k % 10 * Bt + Bt := by
    rcases Nat.lt_or_ge (k % 10) 9 with hc | hc
    · have h := T_lt_bound y t
        (2600 * (k / 2600) + 260 * (k % 2600 / 260) + 10 * (k % 260 / 10) +
          (k % 10 + 1))
        (k / 2600 * P + k % 2600 / 260 * A + k % 260 / 10 * B + k % 10 * Bt + Bt)
        (by omega) (by omega) (by
          have he := sAv_digits_eval y (k / 2600) (k % 2600 / 260) (k % 260 / 10)
            (k % 10 + 1) (by omega) (by omega) (by omega) (by omega)
          rw [← hP, ← hA, ← hB, ← hBt] at he
          have hg : (k % 10 + 1) * Bt = k % 10 * Bt + Bt := by ring
          omega)
      omega
    · have ht9 : k % 10 = 9 := by omega
      rcases Nat.lt_or_ge (k % 260 / 10) 25 with hc2 | hc2
      · have h := T_lt_bound y t
          (2600 * (k / 2600) + 260 * (k % 2600 / 260) + 10 * (k % 260 / 10 + 1) + 0)
          (k / 2600 * P + k % 2600 / 260 * A + k % 260 / 10 * B + k % 10 * Bt + Bt)
          (by omega) (by omega) (by
            have he := sAv_digits_eval y (k / 2600) (k % 2600 / 260)
              (k % 260 / 10 + 1) 0 (by omega) (by omega) (by omega) (by omega)
            rw [← hP, ← hA, ← hB, ← hBt] at he
            have hg : (k % 260 / 10 + 1) * B = k % 260 / 10 * B + B := by ring
            rw [ht9]
            omega)
        omega
      · have hb25 : k % 260 / 10 = 25 := by omega
        rcases Nat.lt_or_ge (k % 2600 / 260) 9 with hc3 | hc3
        · have h := T_lt_bound y t
            (2600 * (k / 2600) + 260 * (k % 2600 / 260 + 1) + 10 * 0 + 0)
            (k / 2600 * P + k % 2600 / 260 * A + k % 260 / 10 * B + k % 10 * Bt + Bt)
            (by omega) (by omega) (by
              have he := sAv_digits_eval y (k / 2600) (k % 2600 / 260 + 1) 0 0
                (by omega) (by omega) (by omega) (by omega)
              rw [← hP, ← hA, ← hB, ← hBt] at he
              have hg : (k % 2600 / 260 + 1) * A = k % 2600 / 260 * A + A := by ring
              rw [ht9, hb25]
              omega)
          omega
        · have ha9 : k % 2600 / 260 = 9 := by omega
          have h := T_lt_bound y t (2600 * (k / 2600 + 1) + 260 * 0 + 10 * 0 + 0)
            (k / 2600 * P + k % 2600 / 260 * A + k % 260 / 10 * B + k % 10 * Bt + Bt)
            (by omega) (by omega) (by
              have he := sAv_digits_eval y (k / 2600 + 1) 0 0 0 (by omega)
                (by omega) (by omega) (by omega)
              rw [← hP, ← hA, ← hB, ← hBt] at he
              have hg : (k / 2600 + 1) * P = k / 2600 * P + P := by ring
              rw [ht9, hb25, ha9]
              omega)
          omega
  have e4 : T % P % A % B / Bt = k % 10 := by
    apply div_eq_digit
    · have hg : Bt * (k % 10) = k % 10 * Bt := by ring
      omega
    · have hg : Bt * (k % 10 + 1) = k % 10 * Bt + Bt := by ring
      omega
  have er4 : T % P % A % B % Bt = T - sAv y k := by
    have h := mod_eq_sub_div_mul (T % P % A % B) Bt
    rw [e4] at h
    have hg : k % 10 * Bt = Bt * (k % 10) := by ring
    omega
  exact ⟨e1, e2, e3, e4, er4⟩

namespace Cascade

theorem encodeF_spec (y t : Nat) (hp : p_idxF y t ≤ 25) (hb : b_idxF y t ≤ 25) :
    encode y t = Except.ok (resultF y t) := by
  have h1 : t * SCALER_N - t * SCALER_N / periodSizeScaled y * periodSizeScaled y =
      rem1F y t := mod_eq_sub_div_mul _ _
  have h2 : rem1F y t - rem1F y t / arcSizeScaled y * arcSizeScaled y =
      rem2F y t := mod_eq_sub_div_mul _ _
  have h3 : rem2F y t - rem2F y t / barSizeScaled y * barSizeScaled y =
      rem3F y t := mod_eq_sub_div_mul _ _
  have h4 : rem3F y t - rem3F y t / beatSizeScaled y * beatSizeScaled y =
      rem4F y t := mod_eq_sub_div_mul _ _
  simp only [encode, h1, h2, h3, h4, toBase26]
  rw [if_neg (by have := hp; unfold p_idxF at this; omega),
    if_neg (by have := hb; unfold b_idxF at this; omega)]
  rfl

end Cascade

namespace BeatIndex

theorem encodeBF_spec (y t : Nat) (hp : totalBeatIndex y t / 2600 ≤ 25)
    (hb : totalBeatIndex y t % 2600 % 260 / 10 ≤ 25) :
    encode y t = Except.ok (resultBF y t) := by
  simp only [encode, toBase26]
  rw [if_neg (by omega), if_neg (by omega)]
  rfl

end BeatIndex

/-! ### The `Date.UTC` two-digit-year path -/

theorem tdiv_natCast (a b : Nat) :
    (a : Int).tdiv (b : Int) = ((a / b : Nat) : Int) := rfl

theorem tmod_natCast (a b : Nat) :
    (a : Int).tmod (b : Int) = ((a % b : Nat) : Int) := rfl

/-- Truncating division of a sufficiently negative number by a positive one
is at most `-c`. -/
theorem tdiv_le_neg {a b c : Int} (hb : 0 < b) (hc : 0 ≤ c)
    (h : a ≤ -(b * c)) : a.tdiv b ≤ -c := by
  have hbc : 0 ≤ b * c := mul_nonneg hb.le hc
  have h0 : 0 ≤ -a := by omega
  have h1 : c * b ≤ -a := by
    have hcomm : b * c = c * b := by ring
    omega
  have h2 : c ≤ (-a) / b := (Int.le_ediv_iff_mul_le hb).2 h1
  have h3 : (-a).tdiv b = (-a) / b := Int.tdiv_eq_ediv h0 hb.le
  have h4 : a.tdiv b = -((-a).tdiv b) := by
    rw [Int.neg_tdiv, neg_neg]
  omega

/-- For an instant of a calendar year 0–99, the offset the source computes
through `Date.UTC` lies below `-yearTotalMs y`. -/
theorem msJS_le (y t : Nat) (hy : y ≤ 99) (ht : t < yearTotalMs y) :
    msSinceYearStartJS y t ≤ -(yearTotalMs y : Int) := by
  unfold msSinceYearStartJS dateUTCYear
  rw [if_pos hy]
  have h1 : yearStartDays y + 1464 ≤ yearStartDays (1900 + y) := by
    unfold yearStartDays leapsBefore
    omega
  have h2 : yearTotalMs y ≤ 366 * 86400000 := yearTotalMs_le y
  omega

/-- For years ≥ 100 the `Date.UTC` offset is the true offset `t`. -/
theorem msSinceYearStartJS_of_ge (y t : Nat) (hy : 100 ≤ y) :
    msSinceYearStartJS y t = (t : Int) := by
  unfold msSinceYearStartJS dateUTCYear
  rw [if_neg (by omega)]
  ring

namespace Cascade

theorem toBase26Z_natCast (n : Nat) : toBase26Z (n : Int) = toBase26 n := by
  unfold toBase26Z toBase26
  by_cases h : 25 < n
  · rw [if_pos (Or.inr (by exact_mod_cast h)), if_pos h]
  · rw [if_neg (by
        push_neg
        exact ⟨Int.natCast_nonneg n, by exact_mod_cast Nat.le_of_not_lt h⟩),
      if_neg h, Int.toNat_natCast]

set_option maxRecDepth 8000 in
/-- On a nonnegative offset the signed cascade agrees with the `Nat`
cascade. -/
theorem encodeZF_ofNat (y t : Nat) : encodeZ y (t : Int) = encode y t := by
  have hs1 : ((t * SCALER_N : Nat) : Int) -
      ((t * SCALER_N / periodSizeScaled y * periodSizeScaled y : Nat) : Int) =
      ((t * SCALER_N - t * SCALER_N / periodSizeScaled y * periodSizeScaled y :
        Nat) : Int) := by
    have h := Nat.div_mul_le_self (t * SCALER_N) (periodSizeScaled y)
    omega
  have hs2 : ((t * SCALER_N - t * SCALER_N / periodSizeScaled y *
        periodSizeScaled y : Nat) : Int) -
      (((t * SCALER_N - t * SCALER_N / periodSizeScaled y * periodSizeScaled y) /
        arcSizeScaled y * arcSizeScaled y : Nat) : Int) =
      (((t * SCALER_N - t * SCALER_N / periodSizeScaled y * periodSizeScaled y) -
        (t * SCALER_N - t * SCALER_N / periodSizeScaled y * periodSizeScaled y) /
        arcSizeScaled y * arcSizeScaled y : Nat) : Int) := by
    have h := Nat.div_mul_le_self
      (t * SCALER_N - t * SCALER_N / periodSizeScaled y * periodSizeScaled y)
      (arcSizeScaled y)
    omega
  have hs3 : (((t * SCALER_N - t * SCALER_N / periodSizeScaled y *
        periodSizeScaled y) -
        (t * SCALER_N - t * SCALER_N / periodSizeScaled y * periodSizeScaled y) /
        arcSizeScaled y * arcSizeScaled y : Nat) : Int) -
      ((((t * SCALER_N - t * SCALER_N / periodSizeScaled y * periodSizeScaled y) -
        (t * SCALER_N - t * SCALER_N / periodSizeScaled y * periodSizeScaled y) /
        arcSizeScaled y * arcSizeScaled y) / barSizeScaled y * barSizeScaled y :
        Nat) : Int) =
      ((((t * SCALER_N - t * SCALER_N / periodSizeScaled y * periodSizeScaled y) -
        (t * SCALER_N - t * SCALER_N / periodSizeScaled y * periodSizeScaled y) /
        arcSizeScaled y * arcSizeScaled y) -
        ((t * SCALER_N - t * SCALER_N / periodSizeScaled y * periodSizeScaled y) -
        (t * SCALER_N - t * SCALER_N / periodSizeScaled y * periodSizeScaled y) /
        arcSizeScaled y * arcSizeScaled y) / barSizeScaled y * barSizeScaled y :
        Nat) : Int) := by
    have h := Nat.div_mul_le_self
      ((t * SCALER_N - t * SCALER_N / periodSizeScaled y * periodSizeScaled y) -
        (t * SCALER_N - t * SCALER_N / periodSizeScaled y * periodSizeScaled y) /
        arcSizeScaled y * arcSizeScaled y)
      (barSizeScaled y)
    omega
  have hs4 : ((((t * SCALER_N - t * SCALER_N / periodSizeScaled y *
        periodSizeScaled y) -
        (t * SCALER_N - t * SCALER_N / periodSizeScaled y * periodSizeScaled y) /
        arcSizeScaled y * arcSizeScaled y) -
        ((t * SCALER_N - t * SCALER_N / periodSizeScaled y * periodSizeScaled y) -
        (t * SCALER_N - t * SCALER_N / periodSizeScaled y * periodSizeScaled y) /
        arcSizeScaled y * arcSizeScaled y) / barSizeScaled y * barSizeScaled y :
        Nat) : Int) -
      (((((t * SCALER_N - t * SCALER_N / periodSizeScaled y * periodSizeScaled y) -
        (t * SCALER_N - t * SCALER_N / periodSizeScaled y * periodSizeScaled y) /
        arcSizeScaled y * arcSizeScaled y) -
        ((t * SCALER_N - t * SCALER_N / periodSizeScaled y * periodSizeScaled y) -
        (t * SCALER_N - t * SCALER_N / periodSizeScaled y * periodSizeScaled y) /
        arcSizeScaled y * arcSizeScaled y) / barSizeScaled y * barSizeScaled y) /
        beatSizeScaled y * beatSizeScaled y : Nat) : Int) =
      (((((t * SCALER_N - t * SCALER_N / periodSizeScaled y * periodSizeScaled y) -
        (t * SCALER_N - t * SCALER_N / periodSizeScaled y * periodSizeScaled y) /
        arcSizeScaled y * arcSizeScaled y) -
        ((t * SCALER_N - t * SCALER_N / periodSizeScaled y * periodSizeScaled y) -
        (t * SCALER_N - t * SCALER_N / periodSizeScaled y * periodSizeScaled y) /
        arcSizeScaled y * arcSizeScaled y) / barSizeScaled y * barSizeScaled y) -
        (((t * SCALER_N - t * SCALER_N / periodSizeScaled y * periodSizeScaled y) -
        (t * SCALER_N - t * SCALER_N / periodSizeScaled y * periodSizeScaled y) /
        arcSizeScaled y * arcSizeScaled y) -
        ((t * SCALER_N - t * SCALER_N / periodSizeScaled y * periodSizeScaled y) -
        (t * SCALER_N - t * SCALER_N / periodSizeScaled y * periodSizeScaled y) /
        arcSizeScaled y * arcSizeScaled y) / barSizeScaled y * barSizeScaled y) /
        beatSizeScaled y * beatSizeScaled y : Nat) : Int) := by
    have h := Nat.div_mul_le_self
      (((t * SCALER_N - t * SCALER_N / periodSizeScaled y * periodSizeScaled y) -
        (t * SCALER_N - t * SCALER_N / periodSizeScaled y * periodSizeScaled y) /
        arcSizeScaled y * arcSizeScaled y) -
        ((t * SCALER_N - t * SCALER_N / periodSizeScaled y * periodSizeScaled y) -
        (t * SCALER_N - t * SCALER_N / periodSizeScaled y * periodSizeScaled y) /
        arcSizeScaled y * arcSizeScaled y) / barSizeScaled y * barSizeScaled y)
      (beatSizeScaled y)
    omega
  simp only [encodeZ, encode, ← Nat.cast_mul, tdiv_natCast, hs1, hs2, hs3, hs4,
    ← Nat.cast_add, Int.toNat_natCast, toBase26Z_natCast]

/-- For years ≥ 100 the full encode is the `Nat` cascade. -/
theorem encodeDateF_of_ge (y t : Nat) (hy : 100 ≤ y) :
    encodeDate y t = encode y t := by
  unfold encodeDate
  rw [msSinceYearStartJS_of_ge y t hy, encodeZF_ofNat]

/-- On an offset at most `-periodSizeScaled y` (once scaled), the cascade
encode throws the defensive invalid-index error. -/
theorem encodeZF_err (y : Nat) (ms : Int)
    (h : ms * (SCALER_N : Int) ≤ -(periodSizeScaled y : Int)) :
    encodeZ y ms =
      Except.error "Invalid index for Base26 single char conversion." := by
  have hpSn : 0 < periodSizeScaled y := by
    unfold periodSizeScaled
    apply Nat.div_pos _ (by omega)
    have h1 := yearTotalMs_pos y
    have h2 : SCALER_N = 1000000 := rfl
    calc 26 ≤ 1 * SCALER_N := by omega
    _ ≤ yearTotalMs y * SCALER_N := Nat.mul_le_mul_right _ h1
  have hpS : (0 : Int) < (periodSizeScaled y : Int) := by exact_mod_cast hpSn
  have hlt : (ms * (SCALER_N : Int)).tdiv (periodSizeScaled y : Int) ≤ -1 :=
    tdiv_le_neg hpS (by omega) (by rw [mul_one]; exact h)
  have hguard : toBase26Z
      ((ms * (SCALER_N : Int)).tdiv (periodSizeScaled y : Int)) =
      Except.error "Invalid index for Base26 single char conversion." := by
    unfold toBase26Z
    rw [if_pos (Or.inl (by omega))]
  simp only [encodeZ]
  rw [hguard]
  rfl

/-- For any instant of a calendar year 0–99 the cascade encode throws the
defensive invalid-index error. -/
theorem encodeDateF_err (y t : Nat) (hy : y ≤ 99) (ht : t < yearTotalMs y) :
    encodeDate y t =
      Except.error "Invalid index for Base26 single char conversion." := by
  unfold encodeDate
  apply encodeZF_err
  have h := msJS_le y t hy ht
  have hpS : (periodSizeScaled y : Int) ≤
      (yearTotalMs y : Int) * (SCALER_N : Int) := by
    have h1 : periodSizeScaled y ≤ yearTotalMs y * SCALER_N := by
      unfold periodSizeScaled
      exact Nat.div_le_self _ _
    exact_mod_cast h1
  have hmul : msSinceYearStartJS y t * (SCALER_N : Int) ≤
      -(yearTotalMs y : Int) * (SCALER_N : Int) := by
    apply mul_le_mul_of_nonneg_right h
    positivity
  have hneg : -(yearTotalMs y : Int) * (SCALER_N : Int) =
      -((yearTotalMs y : Int) * (SCALER_N : Int)) := by ring
  linarith

end Cascade

namespace BeatIndex

/-- On an offset at most `-yearTotalMs y` the beat-index encode throws the
defensive invalid-index error. -/
theorem encodeZBF_err (y : Nat) (ms : Int)
    (h : ms * (BEATS_IN_YEAR : Int) ≤ -((yearTotalMs y : Int) * 2600)) :
    encodeZ y ms = Except.error "Invalid index for Base26." := by
  have hyT : (0 : Int) < (yearTotalMs y : Int) := by
    exact_mod_cast yearTotalMs_pos y
  have hk : (ms * (BEATS_IN_YEAR : Int)).tdiv (yearTotalMs y : Int) ≤ -2600 :=
    tdiv_le_neg hyT (by omega) h
  have hp : ((ms * (BEATS_IN_YEAR : Int)).tdiv
      (yearTotalMs y : Int)).tdiv 2600 ≤ -1 :=
    tdiv_le_neg (by omega) (by omega) (by omega)
  have hguard : toBase26Z (((ms * (BEATS_IN_YEAR : Int)).tdiv
      (yearTotalMs y : Int)).tdiv 2600) =
      Except.error "Invalid index for Base26." := by
    unfold toBase26Z
    rw [if_pos (Or.inl (by omega))]
  simp only [encodeZ]
  rw [hguard]
  rfl

/-- For any instant of a calendar year 0–99 the beat-index encode throws
the defensive invalid-index error. -/
theorem encodeDateBF_err (y t : Nat) (hy : y ≤ 99) (ht : t < yearTotalMs y) :
    encodeDate y t = Except.error "Invalid index for Base26." := by
  unfold encodeDate
  apply encodeZBF_err
  have h := msJS_le y t hy ht
  have hB : ((BEATS_IN_YEAR : Nat) : Int) = 67600 := by
    norm_num [BEATS_IN_YEAR]
  have hmul : msSinceYearStartJS y t * (BEATS_IN_YEAR : Int) ≤
      -(yearTotalMs y : Int) * (BEATS_IN_YEAR : Int) :=
    mul_le_mul_of_nonneg_right h (by rw [hB]; norm_num)
  have hyT : (0 : Int) ≤ (yearTotalMs y : Int) := by positivity
  have h2 : (yearTotalMs y : Int) * 2600 ≤
      (yearTotalMs y : Int) * (BEATS_IN_YEAR : Int) := by
    rw [hB]
    exact mul_le_mul_of_nonneg_left (by norm_num) hyT
  have hneg : -(yearTotalMs y : Int) * (BEATS_IN_YEAR : Int) =
      -((yearTotalMs y : Int) * (BEATS_IN_YEAR : Int)) := by ring
  linarith

end BeatIndex

/-! ### Millisecond-offset agreement -/

/-- Two multiples of `d` that differ, differ by at least `d`. -/
theorem gap_dvd {d a b : Nat} (ha : d ∣ a) (hb : d ∣ b) (h : a < b) :
    a + d ≤ b := by
  obtain ⟨u, rfl⟩ := ha
  obtain ⟨v, rfl⟩ := hb
  have huv : u < v := by
    by_contra hc
    push_neg at hc
    exact absurd (Nat.mul_le_mul_left d hc) (by omega)
  have h2 : d * (u + 1) ≤ d * v := Nat.mul_le_mul_left d huv
  have h3 : d * (u + 1) = d * u + d := by ring
  omega

/-- Flooring an exact scaled quantity by `Kc` first does not change its
ceiling at scale `S`, provided `Kc ≤ S`. -/
theorem ceilDiv_div_scaled (x Kc S : Nat) (hK : 0 < Kc) (hS : 0 < S)
    (hKS : Kc ≤ S) :
    ceilDiv (x * S / Kc) S = ceilDiv (x * S) (Kc * S) := by
  have hKSpos : 0 < Kc * S := Nat.mul_pos hK hS
  apply Nat.le_antisymm
  · rw [ceilDiv_le_iff hS]
    have h1 : x * S ≤ Kc * S * ceilDiv (x * S) (Kc * S) :=
      (ceilDiv_le_iff hKSpos _ _).1 (le_refl _)
    have h2 : x * S / Kc ≤ Kc * S * ceilDiv (x * S) (Kc * S) / Kc :=
      Nat.div_le_div_right h1
    have h3 : Kc * S * ceilDiv (x * S) (Kc * S) / Kc =
        S * ceilDiv (x * S) (Kc * S) := by
      have he : Kc * S * ceilDiv (x * S) (Kc * S) =
          Kc * (S * ceilDiv (x * S) (Kc * S)) := by ring
      rw [he, Nat.mul_div_cancel_left _ hK]
    omega
  · rw [ceilDiv_le_iff hKSpos]
    have h1 : x * S / Kc ≤ S * ceilDiv (x * S / Kc) S :=
      (ceilDiv_le_iff hS _ _).1 (le_refl _)
    have h2 : x * S < x * S / Kc * Kc + Kc := Nat.lt_div_mul_add hK
    rcases Nat.eq_or_lt_of_le h1 with heq | hlt
    · by_contra hc
      push_neg at hc
      have hdv1 : S ∣ Kc * S * ceilDiv (x * S / Kc) S :=
        ⟨Kc * ceilDiv (x * S / Kc) S, by ring⟩
      have hdv2 : S ∣ x * S := ⟨x, by ring⟩
      have hgap := gap_dvd hdv1 hdv2 hc
      have he : x * S / Kc * Kc = Kc * (x * S / Kc) := by ring
      have he2 : Kc * S * ceilDiv (x * S / Kc) S =
          Kc * (S * ceilDiv (x * S / Kc) S) := by ring
      rw [← heq] at he2
      omega
    · have h3 : x * S / Kc + 1 ≤ S * ceilDiv (x * S / Kc) S := hlt
      have h4 : Kc * (x * S / Kc + 1) ≤ Kc * (S * ceilDiv (x * S / Kc) S) :=
        Nat.mul_le_mul_left Kc h3
      have he : Kc * (x * S / Kc + 1) = x * S / Kc * Kc + Kc := by ring
      have he2 : Kc * (S * ceilDiv (x * S / Kc) S) =
          Kc * S * ceilDiv (x * S / Kc) S := by ring
      omega

/-- The ceiling (at the scaler) of a cascade cell start agrees with the
ceiling of the exact rational beat boundary. -/
theorem ceilDiv_sAv_eq (y k : Nat) (hk : k ≤ 67600) :
    ceilDiv (sAv y k) SCALER_N =
      ceilDiv (k * YSv y) (BEATS_IN_YEAR * SCALER_N) := by
  have hS : 0 < SCALER_N := by unfold SCALER_N; omega
  have hKS : (0:Nat) < BEATS_IN_YEAR * SCALER_N := by
    unfold BEATS_IN_YEAR SCALER_N; omega
  have hsand := sAv_sandwich y k hk
  apply Nat.le_antisymm
  · rw [ceilDiv_le_iff hS]
    have h1 : k * YSv y ≤ BEATS_IN_YEAR * SCALER_N *
        ceilDiv (k * YSv y) (BEATS_IN_YEAR * SCALER_N) :=
      (ceilDiv_le_iff hKS _ _).1 (le_refl _)
    have h2 : BEATS_IN_YEAR * SCALER_N *
        ceilDiv (k * YSv y) (BEATS_IN_YEAR * SCALER_N) =
        67600 * (SCALER_N * ceilDiv (k * YSv y) (BEATS_IN_YEAR * SCALER_N)) := by
      unfold BEATS_IN_YEAR; ring
    have h3 : 67600 * sAv y k ≤
        67600 * (SCALER_N * ceilDiv (k * YSv y) (BEATS_IN_YEAR * SCALER_N)) := by
      omega
    exact Nat.le_of_mul_le_mul_left h3 (by omega)
  · rw [ceilDiv_le_iff hKS]
    by_contra hc
    push_neg at hc
    have h1 : sAv y k ≤ SCALER_N * ceilDiv (sAv y k) SCALER_N :=
      (ceilDiv_le_iff hS _ _).1 (le_refl _)
    have h2 : 67600 * sAv y k ≤
        67600 * (SCALER_N * ceilDiv (sAv y k) SCALER_N) := by omega
    have hdv1 : (400 * SCALER_N) ∣
        BEATS_IN_YEAR * SCALER_N * ceilDiv (sAv y k) SCALER_N :=
      ⟨169 * ceilDiv (sAv y k) SCALER_N, by unfold BEATS_IN_YEAR; ring⟩
    have hdv2 : (400 * SCALER_N) ∣ k * YSv y := by
      obtain ⟨c, hc2⟩ := dvd400_yearTotalMs y
      refine ⟨k * c, ?_⟩
      unfold YSv
      rw [hc2]
      ring
    have hgap := gap_dvd hdv1 hdv2 hc
    have he : BEATS_IN_YEAR * SCALER_N * ceilDiv (sAv y k) SCALER_N =
        67600 * (SCALER_N * ceilDiv (sAv y k) SCALER_N) := by
      unfold BEATS_IN_YEAR; ring
    have he2 : (400 : Nat) * SCALER_N = 400000000 := by unfold SCALER_N; ring
    omega

/-- The floored scaled beat start of the beat-index implementation has the
same ceiling at the scaler as the cascade cell start. -/
theorem ceilDiv_beatStart_eq (y k : Nat) (hk : k ≤ 67600) :
    ceilDiv (BeatIndex.beatStartScaledMs y k) SCALER_N =
      ceilDiv (sAv y k) SCALER_N := by
  have hS : 0 < SCALER_N := by unfold SCALER_N; omega
  have hK : (0:Nat) < BEATS_IN_YEAR := by unfold BEATS_IN_YEAR; omega
  have hKS : BEATS_IN_YEAR ≤ SCALER_N := by unfold BEATS_IN_YEAR SCALER_N; omega
  have h1 := ceilDiv_div_scaled (yearTotalMs y * k) BEATS_IN_YEAR SCALER_N hK hS hKS
  have h3 : yearTotalMs y * k * SCALER_N = k * YSv y := by unfold YSv; ring
  rw [ceilDiv_sAv_eq y k hk]
  show ceilDiv (yearTotalMs y * k * SCALER_N / BEATS_IN_YEAR) SCALER_N =
      ceilDiv (k * YSv y) (BEATS_IN_YEAR * SCALER_N)
  rw [← h3]
  exact h1

/-- The floored beat start never exceeds the scaled instant. -/
theorem beatStart_le_T (y t : Nat) :
    BeatIndex.beatStartScaledMs y (BeatIndex.totalBeatIndex y t) ≤
      t * SCALER_N := by
  have h1 := totalBeatIndex_mul_le y t
  have h2 : yearTotalMs y * BeatIndex.totalBeatIndex y t * SCALER_N ≤
      t * BEATS_IN_YEAR * SCALER_N := by
    have he : yearTotalMs y * BeatIndex.totalBeatIndex y t * SCALER_N =
        BeatIndex.totalBeatIndex y t * yearTotalMs y * SCALER_N := by ring
    rw [he]
    exact Nat.mul_le_mul_right _ h1
  have h3 : BeatIndex.beatStartScaledMs y (BeatIndex.totalBeatIndex y t) ≤
      t * BEATS_IN_YEAR * SCALER_N / BEATS_IN_YEAR :=
    Nat.div_le_div_right h2
  have h4 : t * BEATS_IN_YEAR * SCALER_N / BEATS_IN_YEAR = t * SCALER_N := by
    have he : t * BEATS_IN_YEAR * SCALER_N = t * SCALER_N * BEATS_IN_YEAR := by
      ring
    rw [he]
    exact Nat.mul_div_cancel _ (by unfold BEATS_IN_YEAR; omega)
  omega


namespace BeatIndex

set_option maxRecDepth 8000 in
/-- On a nonnegative offset, under the index bounds that any instant
satisfies, the signed beat-index encode agrees with the `Nat` one. -/
theorem encodeZBF_ofNat (y t : Nat) (hp : totalBeatIndex y t / 2600 ≤ 25)
    (hb : totalBeatIndex y t % 2600 % 260 / 10 ≤ 25) :
    encodeZ y (t : Int) = encode y t := by
  unfold totalBeatIndex at hp hb
  have hsB : ((t * SCALER_N : Nat) : Int) -
      ((yearTotalMs y * (t * BEATS_IN_YEAR / yearTotalMs y) * SCALER_N /
        BEATS_IN_YEAR : Nat) : Int) =
      ((t * SCALER_N - yearTotalMs y * (t * BEATS_IN_YEAR / yearTotalMs y) *
        SCALER_N / BEATS_IN_YEAR : Nat) : Int) := by
    have h := beatStart_le_T y t
    unfold beatStartScaledMs totalBeatIndex at h
    omega
  have hgP : toBase26Z ((t * BEATS_IN_YEAR / yearTotalMs y / 2600 : Nat) : Int) =
      Except.ok (letterChar (t * BEATS_IN_YEAR / yearTotalMs y / 2600)) := by
    unfold toBase26Z
    rw [if_neg (by
        push_neg
        exact ⟨Int.natCast_nonneg _, by exact_mod_cast hp⟩),
      Int.toNat_natCast]
  have hgPn : toBase26 (t * BEATS_IN_YEAR / yearTotalMs y / 2600) =
      Except.ok (letterChar (t * BEATS_IN_YEAR / yearTotalMs y / 2600)) := by
    unfold toBase26
    rw [if_neg (by omega)]
  have hgB : toBase26Z ((t * BEATS_IN_YEAR / yearTotalMs y % 2600 % 260 / 10 :
        Nat) : Int) =
      Except.ok (letterChar (t * BEATS_IN_YEAR / yearTotalMs y % 2600 % 260 / 10)) := by
    unfold toBase26Z
    rw [if_neg (by
        push_neg
        exact ⟨Int.natCast_nonneg _, by exact_mod_cast hb⟩),
      Int.toNat_natCast]
  have hgBn : toBase26 (t * BEATS_IN_YEAR / yearTotalMs y % 2600 % 260 / 10) =
      Except.ok (letterChar (t * BEATS_IN_YEAR / yearTotalMs y % 2600 % 260 / 10)) := by
    unfold toBase26
    rw [if_neg (by omega)]
  have l2600 : (2600 : Int) = ((2600 : Nat) : Int) := rfl
  have l260 : (260 : Int) = ((260 : Nat) : Int) := rfl
  have l10 : (10 : Int) = ((10 : Nat) : Int) := rfl
  simp only [encodeZ, encode, totalBeatIndex, beatStartScaledMs,
    l2600, l260, l10, ← Nat.cast_mul, tdiv_natCast, tmod_natCast, hsB,
    ← Nat.cast_add, Int.toNat_natCast, hgP, hgPn, hgB, hgBn]

/-- For years ≥ 100, under the index bounds, the full encode is the `Nat`
beat-index encode. -/
theorem encodeDateBF_of_ge (y t : Nat) (hy : 100 ≤ y)
    (hp : totalBeatIndex y t / 2600 ≤ 25)
    (hb : totalBeatIndex y t % 2600 % 260 / 10 ≤ 25) :
    encodeDate y t = encode y t := by
  unfold encodeDate
  rw [msSinceYearStartJS_of_ge y t hy, encodeZBF_ofNat y t hp hb]

end BeatIndex

/-! ### Field agreement of the two implementations -/

/-- The cascade digits of a valid instant are the mixed-radix digits of its
beat index, and the cascade remainder is the offset from the cell start. -/
theorem fields_agree (y t : Nat) (ht : t < yearTotalMs y) :
    Cascade.p_idxF y t = BeatIndex.totalBeatIndex y t / 2600 ∧
    Cascade.a_valF y t = BeatIndex.totalBeatIndex y t % 2600 / 260 ∧
    Cascade.b_idxF y t = BeatIndex.totalBeatIndex y t % 2600 % 260 / 10 ∧
    Cascade.t_valF y t = BeatIndex.totalBeatIndex y t % 2600 % 260 % 10 ∧
    Cascade.msF y t = BeatIndex.msBF y t ∧
    Cascade.rem4F y t =
      t * SCALER_N - sAv y (BeatIndex.totalBeatIndex y t) := by
  have hm := cascade_master y t (t * SCALER_N) (BeatIndex.totalBeatIndex y t)
    (Cascade.periodSizeScaled y) (Cascade.arcSizeScaled y)
    (Cascade.barSizeScaled y) (Cascade.beatSizeScaled y) ht rfl rfl rfl rfl rfl rfl
  obtain ⟨e1, e2, e3, e4, e5⟩ := hm
  have hklt := totalBeatIndex_lt y t ht
  have g3 : BeatIndex.totalBeatIndex y t % 2600 % 260 =
      BeatIndex.totalBeatIndex y t % 260 := by omega
  have g4 : BeatIndex.totalBeatIndex y t % 2600 % 260 % 10 =
      BeatIndex.totalBeatIndex y t % 10 := by omega
  have hS : 0 < SCALER_N := by unfold SCALER_N; omega
  refine ⟨e1, e2, ?_, ?_, ?_, e5⟩
  · rw [g3]; exact e3
  · rw [g4]; exact e4
  · have hmsF : Cascade.msF y t =
        (t * SCALER_N - sAv y (BeatIndex.totalBeatIndex y t)) / SCALER_N := by
      unfold Cascade.msF
      rw [show Cascade.rem4F y t =
        t * SCALER_N - sAv y (BeatIndex.totalBeatIndex y t) from e5]
    have hc1 := sub_div_eq_sub_ceilDiv hS t
      (sAv y (BeatIndex.totalBeatIndex y t)) (sAv_le_T y t ht)
    have hc2 := sub_div_eq_sub_ceilDiv hS t
      (BeatIndex.beatStartScaledMs y (BeatIndex.totalBeatIndex y t))
      (beatStart_le_T y t)
    have hceq := ceilDiv_beatStart_eq y (BeatIndex.totalBeatIndex y t)
      (le_of_lt hklt)
    unfold BeatIndex.msBF
    omega

/-- Digit bounds for the cascade at a valid instant (hence also validity of
the two `_toBase26` calls). -/
theorem cascade_digit_bounds (y t : Nat) (ht : t < yearTotalMs y) :
    Cascade.p_idxF y t ≤ 25 ∧ Cascade.a_valF y t ≤ 9 ∧
    Cascade.b_idxF y t ≤ 25 ∧ Cascade.t_valF y t ≤ 9 := by
  obtain ⟨e1, e2, e3, e4, _, _⟩ := fields_agree y t ht
  have hklt := totalBeatIndex_lt y t ht
  omega

/-! ### Decimal-string lemmas -/

theorem natDecimalAux_eq (n : Nat) : ∀ f1 f2, n < f1 → n < f2 →
    natDecimalAux f1 n = natDecimalAux f2 n := by
  induction n using Nat.strong_induction_on with
  | _ n ih =>
    intro f1 f2 h1 h2
    match f1, f2 with
    | g1 + 1, g2 + 1 =>
      show natDecimalAux (g1 + 1) n = natDecimalAux (g2 + 1) n
      simp only [natDecimalAux]
      rcases Nat.lt_or_ge n 10 with hn | hn
      · rw [if_pos hn, if_pos hn]
      · rw [if_neg (by omega), if_neg (by omega)]
        congr 1
        exact ih (n / 10) (by omega) g1 g2 (by omega) (by omega)

theorem natDecimal_eq (n : Nat) : natDecimal n =
    if n < 10 then [digitChar n]
    else natDecimal (n / 10) ++ [digitChar (n % 10)] := by
  show natDecimalAux (n + 1) n = _
  simp only [natDecimalAux]
  rcases Nat.lt_or_ge n 10 with hn | hn
  · rw [if_pos hn, if_pos hn]
  · rw [if_neg (by omega), if_neg (by omega)]
    congr 1
    exact natDecimalAux_eq (n / 10) n (n / 10 + 1) (by omega) (by omega)

theorem natDecimal_single (n : Nat) (h : n < 10) : natDecimal n = [digitChar n] := by
  rw [natDecimal_eq, if_pos h]

theorem natDecimal_split (n : Nat) (h : 10 ≤ n) :
    natDecimal n = natDecimal (n / 10) ++ [digitChar (n % 10)] := by
  rw [natDecimal_eq, if_neg (by omega)]

theorem natDecimal_length_pos (n : Nat) : 0 < (natDecimal n).length := by
  rcases Nat.lt_or_ge n 10 with h | h
  · rw [natDecimal_single n h]; simp
  · rw [natDecimal_split n h]; simp

theorem natDecimal_length_le (w : Nat) : ∀ n, 0 < w → n < 10 ^ w →
    (natDecimal n).length ≤ w := by
  induction w with
  | zero => omega
  | succ w ih =>
    intro n _ hn
    rcases Nat.lt_or_ge n 10 with h | h
    · rw [natDecimal_single n h]; simp
    · rw [natDecimal_split n h]
      have hw : 0 < w := by
        by_contra hc
        have : w = 0 := by omega
        subst this
        simp at hn
        omega
      have hdiv : n / 10 < 10 ^ w := by
        rw [Nat.div_lt_iff_lt_mul (by omega)]
        have he : 10 ^ w * 10 = 10 ^ (w + 1) := by ring
        omega
      have := ih (n / 10) hw hdiv
      simp only [List.length_append, List.length_cons, List.length_nil]
      omega

theorem natDecimal_length_ge (w : Nat) : ∀ n, 10 ^ w ≤ n →
    w + 1 ≤ (natDecimal n).length := by
  induction w with
  | zero =>
    intro n _
    exact natDecimal_length_pos n
  | succ w ih =>
    intro n hn
    have h10 : 10 ≤ n := by
      have : 10 ≤ 10 ^ (w + 1) := by
        have : 10 ^ 1 ≤ 10 ^ (w + 1) := Nat.pow_le_pow_right (by omega) (by omega)
        simpa using this
      omega
    rw [natDecimal_split n h10]
    have hdiv : 10 ^ w ≤ n / 10 := by
      rw [Nat.le_div_iff_mul_le (by omega)]
      have he : 10 ^ w * 10 = 10 ^ (w + 1) := by ring
      omega
    have := ih (n / 10) hdiv
    simp only [List.length_append, List.length_cons, List.length_nil]
    omega

theorem natDecimal_digits (n : Nat) :
    ∀ c ∈ natDecimal n, ∃ d, d ≤ 9 ∧ c = digitChar d := by
  induction n using Nat.strong_induction_on with
  | _ n ih =>
    intro c hc
    rcases Nat.lt_or_ge n 10 with h | h
    · rw [natDecimal_single n h] at hc
      simp at hc
      exact ⟨n, by omega, hc⟩
    · rw [natDecimal_split n h] at hc
      rcases List.mem_append.1 hc with hc1 | hc2
      · exact ih (n / 10) (by omega) c hc1
      · simp at hc2
        exact ⟨n % 10, by omega, hc2⟩

theorem digitsVal_append_one (l : List Char) (c : Char) :
    digitsVal (l ++ [c]) = 10 * digitsVal l + (c.toNat - 48) := by
  unfold digitsVal
  rw [List.foldl_append]
  rfl

theorem digitChar_toNat : ∀ d, d ≤ 9 → (digitChar d).toNat = 48 + d := by decide

theorem letterChar_toNat : ∀ n, n ≤ 25 → (letterChar n).toNat = 65 + n := by decide

theorem digitsVal_natDecimal (n : Nat) : digitsVal (natDecimal n) = n := by
  induction n using Nat.strong_induction_on with
  | _ n ih =>
    rcases Nat.lt_or_ge n 10 with h | h
    · rw [natDecimal_single n h]
      show digitsVal ([] ++ [digitChar n]) = n
      rw [digitsVal_append_one]
      have h2 := digitChar_toNat n (by omega)
      unfold digitsVal
      simp
      omega
    · rw [natDecimal_split n h, digitsVal_append_one, ih (n / 10) (by omega),
        digitChar_toNat (n % 10) (by omega)]
      omega

theorem digitsVal_replicate_zero (m : Nat) : ∀ l : List Char,
    digitsVal (List.replicate m '0' ++ l) = digitsVal l := by
  induction m with
  | zero => intro l; rfl
  | succ m ih =>
    intro l
    rw [List.replicate_succ]
    show digitsVal ('0' :: (List.replicate m '0' ++ l)) = digitsVal l
    unfold digitsVal
    rw [List.foldl_cons]
    show digitsVal (List.replicate m '0' ++ l) = digitsVal l
    exact ih l

theorem digitsVal_padStart (w : Nat) (n : Nat) :
    digitsVal (padStart w '0' (natDecimal n)) = n := by
  unfold padStart
  rw [digitsVal_replicate_zero, digitsVal_natDecimal]

theorem padStart_length_eq (w : Nat) (c : Char) (l : List Char)
    (h : l.length ≤ w) : (padStart w c l).length = w := by
  unfold padStart
  simp
  omega

/-! ### Lexicographic-order lemmas -/

theorem yearTotalMs_ge (y : Nat) : 365 * 86400000 ≤ yearTotalMs y := by
  unfold yearTotalMs daysInYear
  rcases isLeap y <;> simp

theorem beatSize_eq (y : Nat) :
    Cascade.beatSizeScaled y = YSv y / 67600 := by
  unfold Cascade.beatSizeScaled Cascade.barSizeScaled Cascade.arcSizeScaled
    Cascade.periodSizeScaled
  show yearTotalMs y * SCALER_N / 26 / 10 / 26 / 10 = YSv y / 67600
  rw [Nat.div_div_eq_div_mul, Nat.div_div_eq_div_mul, Nat.div_div_eq_div_mul]
  rfl

theorem msF_lt (y t : Nat) : Cascade.msF y t < 1000000 := by
  have hpos : 0 < Cascade.beatSizeScaled y := by
    rw [beatSize_eq]
    have h1 : 365 * 86400000 * SCALER_N ≤ YSv y := by
      unfold YSv
      exact Nat.mul_le_mul_right _ (yearTotalMs_ge y)
    have h2 : (1:Nat) ≤ YSv y / 67600 := by
      rw [Nat.le_div_iff_mul_le (by omega)]
      unfold SCALER_N at h1
      omega
    omega
  have hub : Cascade.beatSizeScaled y ≤ 467786982248 := by
    rw [beatSize_eq]
    have h1 : YSv y ≤ 31622400000000000 := by
      unfold YSv
      have h := yearTotalMs_le y
      have h2 : yearTotalMs y * SCALER_N ≤ 366 * 86400000 * SCALER_N :=
        Nat.mul_le_mul_right _ h
      unfold SCALER_N at h2 ⊢
      omega
    calc YSv y / 67600 ≤ 31622400000000000 / 67600 := Nat.div_le_div_right h1
      _ = 467786982248 := by norm_num
  have hrem : Cascade.rem4F y t < Cascade.beatSizeScaled y := Nat.mod_lt _ hpos
  have : Cascade.msF y t ≤ 467786982248 / 1000000 := by
    unfold Cascade.msF SCALER_N
    exact Nat.div_le_div_right (by omega)
  have he : (467786982248:Nat) / 1000000 = 467786 := by norm_num
  omega

theorem canonical_list (y t : Nat) (ha : Cascade.a_valF y t ≤ 9)
    (htt : Cascade.t_valF y t ≤ 9) :
    (Cascade.resultF y t).canonical = String.mk (natDecimal y ++
      ('_' :: letterChar (Cascade.p_idxF y t) :: digitChar (Cascade.a_valF y t) ::
        letterChar (Cascade.b_idxF y t) :: digitChar (Cascade.t_valF y t) :: '_' ::
        padStart 6 '0' (natDecimal (Cascade.msF y t)))) := by
  unfold Cascade.resultF
  simp only
  rw [natDecimal_single (Cascade.a_valF y t) (by omega),
    natDecimal_single (Cascade.t_valF y t) (by omega)]
  simp [List.cons_append, List.append_assoc]

/-- The cascade millisecond offset in closed form. -/
theorem msF_eq (y t : Nat) (ht : t < yearTotalMs y) :
    Cascade.msF y t =
      t - ceilDiv (sAv y (BeatIndex.totalBeatIndex y t)) SCALER_N := by
  have hS : 0 < SCALER_N := by unfold SCALER_N; omega
  obtain ⟨_, _, _, _, _, e6⟩ := fields_agree y t ht
  unfold Cascade.msF
  rw [e6]
  exact sub_div_eq_sub_ceilDiv hS t _ (sAv_le_T y t ht)

theorem ceil_sAv_le_t (y t : Nat) (ht : t < yearTotalMs y) :
    ceilDiv (sAv y (BeatIndex.totalBeatIndex y t)) SCALER_N ≤ t := by
  have hS : 0 < SCALER_N := by unfold SCALER_N; omega
  rw [ceilDiv_le_iff hS]
  have h := sAv_le_T y t ht
  have he : t * SCALER_N = SCALER_N * t := by ring
  omega

theorem exists_list_four {α : Type} (l : List α) (h : l.length = 4) :
    ∃ a b c d, l = [a, b, c, d] := by
  rcases l with _ | ⟨a, _ | ⟨b, _ | ⟨c, _ | ⟨d, _ | ⟨e, l⟩⟩⟩⟩⟩ <;> simp at h
  exact ⟨a, b, c, d, rfl⟩

theorem exists_list_six {α : Type} (l : List α) (h : l.length = 6) :
    ∃ a b c d e f, l = [a, b, c, d, e, f] := by
  rcases l with _ | ⟨a, _ | ⟨b, _ | ⟨c, _ | ⟨d, _ | ⟨e, _ | ⟨f, _ | ⟨g, l⟩⟩⟩⟩⟩⟩⟩ <;>
    simp at h
  exact ⟨a, b, c, d, e, f, rfl⟩

theorem isDigitCh_digitChar : ∀ d, d ≤ 9 → isDigitCh (digitChar d) = true := by
  decide

theorem isUpperCh_letterChar : ∀ n, n ≤ 25 → isUpperCh (letterChar n) = true := by
  decide

theorem natDecimal_length_four (y : Nat) (h1 : 1000 ≤ y) (h2 : y ≤ 9999) :
    (natDecimal y).length = 4 := by
  have hle := natDecimal_length_le 4 y (by omega) (by norm_num; omega)
  have hge := natDecimal_length_ge 3 y (by norm_num; omega)
  omega

theorem padStart_digits (w ms : Nat) :
    ∀ c ∈ padStart w '0' (natDecimal ms), ∃ d, d ≤ 9 ∧ c = digitChar d := by
  intro c hc
  unfold padStart at hc
  rcases List.mem_append.1 hc with h | h
  · have := List.eq_of_mem_replicate h
    exact ⟨0, by omega, by rw [this]; rfl⟩
  · exact natDecimal_digits ms c h

theorem parse_print (y p a b tt ms : Nat) (hy1 : 1000 ≤ y) (hy2 : y ≤ 9999)
    (hp : p ≤ 25) (ha : a ≤ 9) (hb : b ≤ 25) (htt : tt ≤ 9)
    (hms : ms < 1000000) :
    parseCanonical (String.mk (natDecimal y ++ '_' :: letterChar p ::
      natDecimal a ++ letterChar b :: natDecimal tt ++ '_' ::
      padStart 6 '0' (natDecimal ms))) = some (y, p, a, b, tt, ms) := by
  have hlen4 := natDecimal_length_four y hy1 hy2
  obtain ⟨c1, c2, c3, c4, hy4⟩ := exists_list_four (natDecimal y) hlen4
  have hlen6 : (padStart 6 '0' (natDecimal ms)).length = 6 :=
    padStart_length_eq 6 '0' (natDecimal ms)
      (natDecimal_length_le 6 ms (by omega) (by norm_num; omega))
  obtain ⟨e1, e2, e3, e4, e5, e6, hpad6⟩ :=
    exists_list_six (padStart 6 '0' (natDecimal ms)) hlen6
  have hdigy : ∀ c ∈ natDecimal y, ∃ d, d ≤ 9 ∧ c = digitChar d :=
    natDecimal_digits y
  rw [hy4] at hdigy
  obtain ⟨d1, hd1, hc1⟩ := hdigy c1 (by simp)
  obtain ⟨d2, hd2, hc2⟩ := hdigy c2 (by simp)
  obtain ⟨d3, hd3, hc3⟩ := hdigy c3 (by simp)
  obtain ⟨d4, hd4, hc4⟩ := hdigy c4 (by simp)
  have hdigm := padStart_digits 6 ms
  rw [hpad6] at hdigm
  obtain ⟨f1, hf1, he1⟩ := hdigm e1 (by simp)
  obtain ⟨f2, hf2, he2⟩ := hdigm e2 (by simp)
  obtain ⟨f3, hf3, he3⟩ := hdigm e3 (by simp)
  obtain ⟨f4, hf4, he4⟩ := hdigm e4 (by simp)
  obtain ⟨f5, hf5, he5⟩ := hdigm e5 (by simp)
  obtain ⟨f6, hf6, he6⟩ := hdigm e6 (by simp)
  have hlist : natDecimal y ++ '_' :: letterChar p ::
      natDecimal a ++ letterChar b :: natDecimal tt ++ '_' ::
      padStart 6 '0' (natDecimal ms) =
      [c1, c2, c3, c4, '_', letterChar p, digitChar a, letterChar b,
        digitChar tt, '_', e1, e2, e3, e4, e5, e6] := by
    rw [hy4, hpad6, natDecimal_single a (by omega), natDecimal_single tt (by omega)]
    simp
  rw [hlist]
  unfold parseCanonical
  simp only
  rw [if_pos (by
    rw [hc1, hc2, hc3, hc4, he1, he2, he3, he4, he5, he6]
    simp [isDigitCh_digitChar d1 hd1, isDigitCh_digitChar d2 hd2,
      isDigitCh_digitChar d3 hd3, isDigitCh_digitChar d4 hd4,
      isDigitCh_digitChar f1 hf1, isDigitCh_digitChar f2 hf2,
      isDigitCh_digitChar f3 hf3, isDigitCh_digitChar f4 hf4,
      isDigitCh_digitChar f5 hf5, isDigitCh_digitChar f6 hf6,
      isUpperCh_letterChar p hp, isUpperCh_letterChar b hb,
      isDigitCh_digitChar a (by omega : a ≤ 9),
      isDigitCh_digitChar tt (by omega : tt ≤ 9)])]
  have hyval : digitsVal [c1, c2, c3, c4] = y := by
    rw [← hy4]; exact digitsVal_natDecimal y
  have hmsval : digitsVal [e1, e2, e3, e4, e5, e6] = ms := by
    rw [← hpad6]; exact digitsVal_padStart 6 ms
  have hpln : (letterChar p).toNat - 65 = p := by
    rw [letterChar_toNat p hp]; omega
  have hbln : (letterChar b).toNat - 65 = b := by
    rw [letterChar_toNat b hb]; omega
  have haval : digitsVal [digitChar a] = a := by
    rw [← natDecimal_single a (by omega)]; exact digitsVal_natDecimal a
  have htval : digitsVal [digitChar tt] = tt := by
    rw [← natDecimal_single tt (by omega)]; exact digitsVal_natDecimal tt
  rw [hyval, hmsval, hpln, hbln, haval, htval]

/-- Decoding the cascade-encoded canonical string: explicit result. -/
theorem decode_resultF (y t : Nat) (hy1 : 1000 ≤ y) (hy2 : y ≤ 9999)
    (ht : t < yearTotalMs y) :
    Cascade.decode (Cascade.resultF y t).canonical = Except.ok
      (y, Cascade.msF y t +
        sAv y (BeatIndex.totalBeatIndex y t) / SCALER_N) := by
  obtain ⟨hp, ha, hb, htt⟩ := cascade_digit_bounds y t ht
  have hms := msF_lt y t
  have hparse := parse_print y (Cascade.p_idxF y t) (Cascade.a_valF y t)
    (Cascade.b_idxF y t) (Cascade.t_valF y t) (Cascade.msF y t)
    hy1 hy2 hp ha hb htt hms
  have hcanon : (Cascade.resultF y t).canonical = String.mk (natDecimal y ++
      '_' :: letterChar (Cascade.p_idxF y t) :: natDecimal (Cascade.a_valF y t) ++
      letterChar (Cascade.b_idxF y t) :: natDecimal (Cascade.t_valF y t) ++ '_' ::
      padStart 6 '0' (natDecimal (Cascade.msF y t))) := rfl
  rw [hcanon]
  unfold Cascade.decode
  rw [hparse]
  simp only
  obtain ⟨e1, e2, e3, e4, _, _⟩ := fields_agree y t ht
  have hklt := totalBeatIndex_lt y t ht
  have hsum : Cascade.p_idxF y t * Cascade.periodSizeScaled y +
      Cascade.a_valF y t * Cascade.arcSizeScaled y +
      Cascade.b_idxF y t * Cascade.barSizeScaled y +
      Cascade.t_valF y t * Cascade.beatSizeScaled y =
      sAv y (BeatIndex.totalBeatIndex y t) := by
    rw [e1, e2, e3, e4]
    have g3 : BeatIndex.totalBeatIndex y t % 2600 % 260 =
        BeatIndex.totalBeatIndex y t % 260 := by omega
    rw [g3]
    have g4 : BeatIndex.totalBeatIndex y t % 260 % 10 =
        BeatIndex.totalBeatIndex y t % 10 := by omega
    rw [g4]
    rfl
  rw [hsum]
  have hS : 0 < SCALER_N := by unfold SCALER_N; omega
  have hcm : Cascade.msF y t * SCALER_N = SCALER_N * Cascade.msF y t := by ring
  rw [hcm, Nat.add_mul_div_left _ _ hS]
  rw [Nat.add_comm]

/-- Decoding the beat-index-encoded canonical string: explicit result. -/
theorem decode_resultBF (y t : Nat) (hy1 : 1000 ≤ y) (hy2 : y ≤ 9999)
    (ht : t < yearTotalMs y) :
    BeatIndex.decode (BeatIndex.resultBF y t).canonical = Except.ok
      (y, BeatIndex.msBF y t +
        BeatIndex.beatStartScaledMs y (BeatIndex.totalBeatIndex y t) /
          SCALER_N) := by
  have hklt := totalBeatIndex_lt y t ht
  have hmsB : BeatIndex.msBF y t < 1000000 := by
    obtain ⟨_, _, _, _, e5, _⟩ := fields_agree y t ht
    have := msF_lt y t
    omega
  have hparse := parse_print y (BeatIndex.totalBeatIndex y t / 2600)
    (BeatIndex.totalBeatIndex y t % 2600 / 260)
    (BeatIndex.totalBeatIndex y t % 2600 % 260 / 10)
    (BeatIndex.totalBeatIndex y t % 2600 % 260 % 10)
    (BeatIndex.msBF y t)
    hy1 hy2 (by omega) (by omega) (by omega) (by omega) hmsB
  have hcanon : (BeatIndex.resultBF y t).canonical = String.mk (natDecimal y ++
      '_' :: letterChar (BeatIndex.totalBeatIndex y t / 2600) ::
      natDecimal (BeatIndex.totalBeatIndex y t % 2600 / 260) ++
      letterChar (BeatIndex.totalBeatIndex y t % 2600 % 260 / 10) ::
      natDecimal (BeatIndex.totalBeatIndex y t % 2600 % 260 % 10) ++ '_' ::
      padStart 6 '0' (natDecimal (BeatIndex.msBF y t))) := rfl
  rw [hcanon]
  unfold BeatIndex.decode
  rw [hparse]
  simp only
  congr 1
  have hktot : BeatIndex.totalBeatIndex y t / 2600 * 2600 +
      BeatIndex.totalBeatIndex y t % 2600 / 260 * 260 +
      BeatIndex.totalBeatIndex y t % 2600 % 260 / 10 * 10 +
      BeatIndex.totalBeatIndex y t % 2600 % 260 % 10 =
      BeatIndex.totalBeatIndex y t := by omega
  rw [hktot]
  have hbs : yearTotalMs y * SCALER_N * BeatIndex.totalBeatIndex y t /
      BEATS_IN_YEAR =
      BeatIndex.beatStartScaledMs y (BeatIndex.totalBeatIndex y t) := by
    unfold BeatIndex.beatStartScaledMs
    congr 1
    ring
  rw [hbs]
  have hS : 0 < SCALER_N := by unfold SCALER_N; omega
  have hcm : BeatIndex.msBF y t * SCALER_N = SCALER_N * BeatIndex.msBF y t := by
    ring
  rw [hcm, Nat.add_mul_div_left _ _ hS]
  rw [Nat.add_comm]

/-- One-millisecond one-sided round-trip bound, cascade implementation. -/
theorem roundtrip_cascade (y t : Nat) (hy1 : 1000 ≤ y) (hy2 : y ≤ 9999)
    (ht : t < yearTotalMs y) :
    ∃ t2, Cascade.decode (Cascade.resultF y t).canonical = Except.ok (y, t2) ∧
      t2 ≤ t ∧ t - t2 ≤ 1 := by
  refine ⟨_, decode_resultF y t hy1 hy2 ht, ?_, ?_⟩ <;>
  · have hms := msF_eq y t ht
    have hc1 := ceil_sAv_le_t y t ht
    have hS : 0 < SCALER_N := by unfold SCALER_N; omega
    have hfl := div_le_ceilDiv hS (sAv y (BeatIndex.totalBeatIndex y t))
    have hfu := ceilDiv_le_div_succ hS (sAv y (BeatIndex.totalBeatIndex y t))
    omega

/-- One-millisecond one-sided round-trip bound, beat-index implementation. -/
theorem roundtrip_beatindex (y t : Nat) (hy1 : 1000 ≤ y) (hy2 : y ≤ 9999)
    (ht : t < yearTotalMs y) :
    ∃ t2, BeatIndex.decode (BeatIndex.resultBF y t).canonical =
      Except.ok (y, t2) ∧ t2 ≤ t ∧ t - t2 ≤ 1 := by
  refine ⟨_, decode_resultBF y t hy1 hy2 ht, ?_, ?_⟩ <;>
  · have hS : 0 < SCALER_N := by unfold SCALER_N; omega
    have hms : BeatIndex.msBF y t =
        t - ceilDiv (BeatIndex.beatStartScaledMs y
          (BeatIndex.totalBeatIndex y t)) SCALER_N :=
      sub_div_eq_sub_ceilDiv hS t _ (beatStart_le_T y t)
    have hcle : ceilDiv (BeatIndex.beatStartScaledMs y
        (BeatIndex.totalBeatIndex y t)) SCALER_N ≤ t := by
      rw [ceilDiv_le_iff hS]
      have h := beatStart_le_T y t
      have he : t * SCALER_N = SCALER_N * t := by ring
      omega
    have hfl := div_le_ceilDiv hS
      (BeatIndex.beatStartScaledMs y (BeatIndex.totalBeatIndex y t))
    have hfu := ceilDiv_le_div_succ hS
      (BeatIndex.beatStartScaledMs y (BeatIndex.totalBeatIndex y t))
    omega

/-! ### Decode error behaviour -/

theorem parseCanonical_none_iff (s : String) :
    parseCanonical s = none ↔ canonShape s = false := by
  obtain ⟨l⟩ := s
  unfold parseCanonical canonShape
  simp only
  rcases l with _ | ⟨c1, l⟩
  · simp
  rcases l with _ | ⟨c2, l⟩
  · simp
  rcases l with _ | ⟨c3, l⟩
  · simp
  rcases l with _ | ⟨c4, l⟩
  · simp
  rcases l with _ | ⟨c5, l⟩
  · simp
  rcases l with _ | ⟨c6, l⟩
  · simp
  rcases l with _ | ⟨c7, l⟩
  · simp
  rcases l with _ | ⟨c8, l⟩
  · simp
  rcases l with _ | ⟨c9, l⟩
  · simp
  rcases l with _ | ⟨c10, l⟩
  · simp
  rcases l with _ | ⟨c11, l⟩
  · simp
  rcases l with _ | ⟨c12, l⟩
  · simp
  rcases l with _ | ⟨c13, l⟩
  · simp
  rcases l with _ | ⟨c14, l⟩
  · simp
  rcases l with _ | ⟨c15, l⟩
  · simp
  rcases l with _ | ⟨c16, l⟩
  · simp
  rcases l with _ | ⟨c17, l⟩
  · rcases hcond : (isDigitCh c1 && isDigitCh c2 && isDigitCh c3 && isDigitCh c4 &&
      (c5 == '_') && isUpperCh c6 && isDigitCh c7 && isUpperCh c8 &&
      isDigitCh c9 && (c10 == '_') && isDigitCh c11 && isDigitCh c12 &&
      isDigitCh c13 && isDigitCh c14 && isDigitCh c15 && isDigitCh c16) with
      hfalse | htrue
    · simp [hcond]
    · simp [hcond]
  · simp

theorem decode_of_shape (s : String) :
    (canonShape s = false →
      Cascade.decode s = Except.error (Cascade.decodeErrMsg s) ∧
      BeatIndex.decode s = Except.error (BeatIndex.decodeErrMsg s)) ∧
    (canonShape s = true →
      (∃ v, Cascade.decode s = Except.ok v) ∧
      ∃ w, BeatIndex.decode s = Except.ok w) := by
  constructor
  · intro h
    have hp := (parseCanonical_none_iff s).2 h
    unfold Cascade.decode BeatIndex.decode
    rw [hp]
    exact ⟨rfl, rfl⟩
  · intro h
    have hp : parseCanonical s ≠ none := by
      intro hc
      rw [(parseCanonical_none_iff s).1 hc] at h
      simp at h
    obtain ⟨tup, htup⟩ : ∃ tup, parseCanonical s = some tup := by
      rcases hps : parseCanonical s with _ | tup
      · exact absurd hps hp
      · exact ⟨tup, rfl⟩
    obtain ⟨year, p, a, b, tt, ms⟩ := tup
    unfold Cascade.decode BeatIndex.decode
    rw [htup]
    exact ⟨⟨_, rfl⟩, ⟨_, rfl⟩⟩

/-! ### The 400 evenly spaced exact instants -/

theorem aligned_t_lt (y j : Nat) (hj : j < 400) :
    j * (yearTotalMs y / 400) < yearTotalMs y := by
  obtain ⟨c, hc⟩ := dvd400_yearTotalMs y
  have hstep : yearTotalMs y / 400 = c := by omega
  have hpos : 0 < c := by
    have := yearTotalMs_pos y
    omega
  rw [hstep, hc]
  have h : j * c < 400 * c := (Nat.mul_lt_mul_right hpos).2 hj
  omega

theorem aligned_k (y j : Nat) :
    BeatIndex.totalBeatIndex y (j * (yearTotalMs y / 400)) = 169 * j := by
  obtain ⟨c, hc⟩ := dvd400_yearTotalMs y
  have hstep : yearTotalMs y / 400 = c := by omega
  have hpos : 0 < yearTotalMs y := yearTotalMs_pos y
  unfold BeatIndex.totalBeatIndex
  rw [hstep]
  have he : j * c * BEATS_IN_YEAR = 169 * j * yearTotalMs y := by
    rw [hc]
    unfold BEATS_IN_YEAR
    ring
  rw [he, Nat.mul_div_cancel _ hpos]

theorem aligned_beatStart (y j : Nat) :
    BeatIndex.beatStartScaledMs y (169 * j) =
      j * (yearTotalMs y / 400) * SCALER_N := by
  obtain ⟨c, hc⟩ := dvd400_yearTotalMs y
  have hstep : yearTotalMs y / 400 = c := by omega
  unfold BeatIndex.beatStartScaledMs
  rw [hstep]
  have he : yearTotalMs y * (169 * j) * SCALER_N =
      j * c * SCALER_N * BEATS_IN_YEAR := by
    rw [hc]
    unfold BEATS_IN_YEAR
    ring
  rw [he, Nat.mul_div_cancel _ (by unfold BEATS_IN_YEAR; omega)]

theorem aligned_exact (y j : Nat) (hy1 : 1000 ≤ y) (hy2 : y ≤ 9999)
    (hj : j < 400) :
    BeatIndex.decode
        (BeatIndex.resultBF y (j * (yearTotalMs y / 400))).canonical =
      Except.ok (y, j * (yearTotalMs y / 400)) := by
  have ht := aligned_t_lt y j hj
  have hdec := decode_resultBF y (j * (yearTotalMs y / 400)) hy1 hy2 ht
  have hk := aligned_k y j
  have hbs : BeatIndex.beatStartScaledMs y
      (BeatIndex.totalBeatIndex y (j * (yearTotalMs y / 400))) =
      j * (yearTotalMs y / 400) * SCALER_N := by
    rw [hk]
    exact aligned_beatStart y j
  have hms : BeatIndex.msBF y (j * (yearTotalMs y / 400)) = 0 := by
    unfold BeatIndex.msBF
    rw [hbs]
    simp
  rw [hdec, hms, hbs]
  have hS : 0 < SCALER_N := by unfold SCALER_N; omega
  rw [Nat.mul_div_cancel _ hS, Nat.zero_add]

theorem canonShape_true_length (s : String) (h : canonShape s = true) :
    s.data.length = 16 := by
  obtain ⟨l⟩ := s
  unfold canonShape at h
  simp only at h
  rcases l with _ | ⟨c1, l⟩
  · simp at h
  rcases l with _ | ⟨c2, l⟩
  · simp at h
  rcases l with _ | ⟨c3, l⟩
  · simp at h
  rcases l with _ | ⟨c4, l⟩
  · simp at h
  rcases l with _ | ⟨c5, l⟩
  · simp at h
  rcases l with _ | ⟨c6, l⟩
  · simp at h
  rcases l with _ | ⟨c7, l⟩
  · simp at h
  rcases l with _ | ⟨c8, l⟩
  · simp at h
  rcases l with _ | ⟨c9, l⟩
  · simp at h
  rcases l with _ | ⟨c10, l⟩
  · simp at h
  rcases l with _ | ⟨c11, l⟩
  · simp at h
  rcases l with _ | ⟨c12, l⟩
  · simp at h
  rcases l with _ | ⟨c13, l⟩
  · simp at h
  rcases l with _ | ⟨c14, l⟩
  · simp at h
  rcases l with _ | ⟨c15, l⟩
  · simp at h
  rcases l with _ | ⟨c16, l⟩
  · simp at h
  rcases l with _ | ⟨c17, l⟩
  · simp
  · simp at h

theorem canonical_length_F (y t : Nat) (ht : t < yearTotalMs y) :
    (Cascade.resultF y t).canonical.data.length = (natDecimal y).length + 12 := by
  obtain ⟨hp, ha, hb, htt⟩ := cascade_digit_bounds y t ht
  rw [canonical_list y t ha htt]
  show (natDecimal y ++ '_' :: letterChar (Cascade.p_idxF y t) ::
      digitChar (Cascade.a_valF y t) :: letterChar (Cascade.b_idxF y t) ::
      digitChar (Cascade.t_valF y t) :: '_' ::
      padStart 6 '0' (natDecimal (Cascade.msF y t))).length =
    (natDecimal y).length + 12
  have hpadlen : (padStart 6 '0' (natDecimal (Cascade.msF y t))).length = 6 :=
    padStart_length_eq 6 '0' _ (natDecimal_length_le 6 (Cascade.msF y t)
      (by omega) (by have := msF_lt y t; norm_num; omega))
  simp [hpadlen]

theorem canonical_length_BF (y t : Nat) (ht : t < yearTotalMs y) :
    (BeatIndex.resultBF y t).canonical.data.length =
      (natDecimal y).length + 12 := by
  have hklt := totalBeatIndex_lt y t ht
  have hmsB : BeatIndex.msBF y t < 1000000 := by
    obtain ⟨_, _, _, _, e5, _⟩ := fields_agree y t ht
    have := msF_lt y t
    omega
  show (natDecimal y ++ '_' :: letterChar (BeatIndex.totalBeatIndex y t / 2600) ::
      natDecimal (BeatIndex.totalBeatIndex y t % 2600 / 260) ++
      letterChar (BeatIndex.totalBeatIndex y t % 2600 % 260 / 10) ::
      natDecimal (BeatIndex.totalBeatIndex y t % 2600 % 260 % 10) ++ '_' ::
      padStart 6 '0' (natDecimal (BeatIndex.msBF y t))).length =
    (natDecimal y).length + 12
  have hpadlen : (padStart 6 '0' (natDecimal (BeatIndex.msBF y t))).length = 6 :=
    padStart_length_eq 6 '0' _ (natDecimal_length_le 6 (BeatIndex.msBF y t)
      (by omega) (by norm_num; omega))
  rw [natDecimal_single (BeatIndex.totalBeatIndex y t % 2600 / 260) (by omega),
    natDecimal_single (BeatIndex.totalBeatIndex y t % 2600 % 260 % 10) (by omega)]
  simp [hpadlen]

theorem shape_false_of_bad_year_F (y t : Nat) (ht : t < yearTotalMs y)
    (hy : y < 1000 ∨ 9999 < y) :
    canonShape (Cascade.resultF y t).canonical = false := by
  rcases hc : canonShape (Cascade.resultF y t).canonical with _ | _
  · rfl
  · exfalso
    have hlen := canonShape_true_length _ hc
    rw [canonical_length_F y t ht] at hlen
    rcases hy with hy | hy
    · have := natDecimal_length_le 3 y (by omega) (by norm_num; omega)
      omega
    · have := natDecimal_length_ge 4 y (by norm_num; omega)
      omega

theorem shape_false_of_bad_year_BF (y t : Nat) (ht : t < yearTotalMs y)
    (hy : y < 1000 ∨ 9999 < y) :
    canonShape (BeatIndex.resultBF y t).canonical = false := by
  rcases hc : canonShape (BeatIndex.resultBF y t).canonical with _ | _
  · rfl
  · exfalso
    have hlen := canonShape_true_length _ hc
    rw [canonical_length_BF y t ht] at hlen
    rcases hy with hy | hy
    · have := natDecimal_length_le 3 y (by omega) (by norm_num; omega)
      omega
    · have := natDecimal_length_ge 4 y (by norm_num; omega)
      omega

theorem shape_true_F (y t : Nat) (hy1 : 1000 ≤ y) (hy2 : y ≤ 9999)
    (ht : t < yearTotalMs y) :
    canonShape (Cascade.resultF y t).canonical = true := by
  obtain ⟨hp, ha, hb, htt⟩ := cascade_digit_bounds y t ht
  have hparse := parse_print y (Cascade.p_idxF y t) (Cascade.a_valF y t)
    (Cascade.b_idxF y t) (Cascade.t_valF y t) (Cascade.msF y t)
    hy1 hy2 hp ha hb htt (msF_lt y t)
  rcases hc : canonShape (Cascade.resultF y t).canonical with _ | _
  · exfalso
    have hnone := (parseCanonical_none_iff (Cascade.resultF y t).canonical).2 hc
    have hcanon : (Cascade.resultF y t).canonical = String.mk (natDecimal y ++
        '_' :: letterChar (Cascade.p_idxF y t) :: natDecimal (Cascade.a_valF y t) ++
        letterChar (Cascade.b_idxF y t) :: natDecimal (Cascade.t_valF y t) ++ '_' ::
        padStart 6 '0' (natDecimal (Cascade.msF y t))) := rfl
    rw [hcanon, hparse] at hnone
    simp at hnone
  · rfl

theorem shape_true_BF (y t : Nat) (hy1 : 1000 ≤ y) (hy2 : y ≤ 9999)
    (ht : t < yearTotalMs y) :
    canonShape (BeatIndex.resultBF y t).canonical = true := by
  have hklt := totalBeatIndex_lt y t ht
  have hmsB : BeatIndex.msBF y t < 1000000 := by
    obtain ⟨_, _, _, _, e5, _⟩ := fields_agree y t ht
    have := msF_lt y t
    omega
  have hparse := parse_print y (BeatIndex.totalBeatIndex y t / 2600)
    (BeatIndex.totalBeatIndex y t % 2600 / 260)
    (BeatIndex.totalBeatIndex y t % 2600 % 260 / 10)
    (BeatIndex.totalBeatIndex y t % 2600 % 260 % 10)
    (BeatIndex.msBF y t)
    hy1 hy2 (by omega) (by omega) (by omega) (by omega) hmsB
  rcases hc : canonShape (BeatIndex.resultBF y t).canonical with _ | _
  · exfalso
    have hnone := (parseCanonical_none_iff (BeatIndex.resultBF y t).canonical).2 hc
    have hcanon : (BeatIndex.resultBF y t).canonical = String.mk (natDecimal y ++
        '_' :: letterChar (BeatIndex.totalBeatIndex y t / 2600) ::
        natDecimal (BeatIndex.totalBeatIndex y t % 2600 / 260) ++
        letterChar (BeatIndex.totalBeatIndex y t % 2600 % 260 / 10) ::
        natDecimal (BeatIndex.totalBeatIndex y t % 2600 % 260 % 10) ++ '_' ::
        padStart 6 '0' (natDecimal (BeatIndex.msBF y t))) := rfl
    rw [hcanon, hparse] at hnone
    simp at hnone
  · rfl

/-- At the first instant of a year all cascade projections vanish. -/
theorem zero_fields_F (y : Nat) :
    Cascade.p_idxF y 0 = 0 ∧ Cascade.a_valF y 0 = 0 ∧ Cascade.b_idxF y 0 = 0 ∧
    Cascade.t_valF y 0 = 0 ∧ Cascade.msF y 0 = 0 := by
  unfold Cascade.msF Cascade.rem4F Cascade.t_valF Cascade.rem3F Cascade.b_idxF
    Cascade.rem2F Cascade.a_valF Cascade.rem1F Cascade.p_idxF
  simp

/-- At the first instant of a year the beat index and offset vanish. -/
theorem zero_fields_BF (y : Nat) :
    BeatIndex.totalBeatIndex y 0 = 0 ∧ BeatIndex.msBF y 0 = 0 := by
  have hk : BeatIndex.totalBeatIndex y 0 = 0 := by
    unfold BeatIndex.totalBeatIndex
    simp
  refine ⟨hk, ?_⟩
  unfold BeatIndex.msBF
  rw [hk]
  unfold BeatIndex.beatStartScaledMs
  simp

/-! ### Claims -/

/-- Claim C1 (corrected: restricted to four-digit years 1000–9999, outside
which the canonical year field does not match the decode regex and decode
throws): for every valid UTC instant of such a year, decoding the encoded
canonical string succeeds and returns an instant at most 1 ms before the
original, under both implementations. -/
theorem C1_round_trip_bound (y t : Nat) (hy1 : 1000 ≤ y) (hy2 : y ≤ 9999)
    (ht : t < yearTotalMs y) :
    (∃ R t2, Cascade.encode y t = Except.ok R ∧
      Cascade.decode R.canonical = Except.ok (y, t2) ∧ t2 ≤ t ∧ t - t2 ≤ 1) ∧
    (∃ R t2, BeatIndex.encode y t = Except.ok R ∧
      BeatIndex.decode R.canonical = Except.ok (y, t2) ∧ t2 ≤ t ∧ t - t2 ≤ 1) := by
  constructor
  · obtain ⟨hp, ha, hb, htt⟩ := cascade_digit_bounds y t ht
    obtain ⟨t2, hdec, h1, h2⟩ := roundtrip_cascade y t hy1 hy2 ht
    exact ⟨Cascade.resultF y t, t2, Cascade.encodeF_spec y t hp hb, hdec, h1, h2⟩
  · have hk := totalBeatIndex_lt y t ht
    obtain ⟨t2, hdec, h1, h2⟩ := roundtrip_beatindex y t hy1 hy2 ht
    exact ⟨BeatIndex.resultBF y t, t2,
      BeatIndex.encodeBF_spec y t (by omega) (by omega), hdec, h1, h2⟩

/-- Witness for C1 at year 2025, instant 1 ms after the year start. -/
theorem C1_round_trip_bound_witness :
    (∃ R t2, Cascade.encode 2025 1 = Except.ok R ∧
      Cascade.decode R.canonical = Except.ok (2025, t2) ∧ t2 ≤ 1 ∧ 1 - t2 ≤ 1) ∧
    (∃ R t2, BeatIndex.encode 2025 1 = Except.ok R ∧
      BeatIndex.decode R.canonical = Except.ok (2025, t2) ∧ t2 ≤ 1 ∧ 1 - t2 ≤ 1) :=
  C1_round_trip_bound 2025 1 (by decide) (by decide) (by decide)

/-- Counterexample for C1 as stated: year 999 is a valid UTC instant year,
its canonical string has a three-digit year field, and decode rejects it. -/
theorem C1_counterexample :
    Cascade.encode 999 0 = Except.ok
      ⟨"999_A0A0_000000", 999, 0, 0, 0, 0, 0, 'A', 'A', "A0:A0", 0, 121292307⟩ ∧
    Cascade.decode "999_A0A0_000000" =
      Except.error (Cascade.decodeErrMsg "999_A0A0_000000") ∧
    BeatIndex.encode 999 0 = Except.ok
      ⟨"999_A0A0_000000", 999, 0, 0, 0, 0, 0, 'A', 'A', "A0:A0", 0, 121292307⟩ ∧
    BeatIndex.decode "999_A0A0_000000" =
      Except.error (BeatIndex.decodeErrMsg "999_A0A0_000000") :=
  ⟨rfl, rfl, rfl, rfl⟩

/-- Claim C4 (confirmed): each decode fails, with the error message naming
the offending input, exactly on the strings that do not match the canonical
regex, and succeeds on every string that matches it, with no further
validation of the parsed fields. -/
theorem C4_decode_error_iff (s : String) :
    (Cascade.decode s = Except.error (Cascade.decodeErrMsg s) ↔
      canonShape s = false) ∧
    (BeatIndex.decode s = Except.error (BeatIndex.decodeErrMsg s) ↔
      canonShape s = false) ∧
    ((∃ v, Cascade.decode s = Except.ok v) ↔ canonShape s = true) ∧
    ((∃ w, BeatIndex.decode s = Except.ok w) ↔ canonShape s = true) := by
  rcases hsh : canonShape s with _ | _
  · obtain ⟨hcerr, hberr⟩ := (decode_of_shape s).1 hsh
    refine ⟨⟨fun _ => rfl, fun _ => hcerr⟩, ⟨fun _ => rfl, fun _ => hberr⟩,
      ⟨?_, fun h => nomatch h⟩, ⟨?_, fun h => nomatch h⟩⟩
    · rintro ⟨v, hv⟩
      rw [hcerr] at hv
      exact Except.noConfusion hv
    · rintro ⟨w, hw⟩
      rw [hberr] at hw
      exact Except.noConfusion hw
  · obtain ⟨⟨v, hv⟩, ⟨w, hw⟩⟩ := (decode_of_shape s).2 hsh
    refine ⟨⟨?_, fun h => nomatch h⟩, ⟨?_, fun h => nomatch h⟩,
      ⟨fun _ => rfl, fun _ => ⟨v, hv⟩⟩, ⟨fun _ => rfl, fun _ => ⟨w, hw⟩⟩⟩
    · intro h
      rw [h] at hv
      exact Except.noConfusion hv
    · intro h
      rw [h] at hw
      exact Except.noConfusion hw

/-- Claim C5 (corrected: restricted to four-digit years 1000–9999, outside
which the year field of the canonical string is not four digits): for every
valid instant of such a year, both encodes produce a canonical string
matching the anchored regex exactly, with a millisecond field below
1,000,000, so padding to six digits never truncates. -/
theorem C5_format_validity (y t : Nat) (hy1 : 1000 ≤ y) (hy2 : y ≤ 9999)
    (ht : t < yearTotalMs y) :
    (∃ R, Cascade.encode y t = Except.ok R ∧ canonShape R.canonical = true ∧
      R.msOffsetInBeat < 1000000) ∧
    (∃ R, BeatIndex.encode y t = Except.ok R ∧ canonShape R.canonical = true ∧
      R.msOffsetInBeat < 1000000) := by
  obtain ⟨hp, ha, hb, htt⟩ := cascade_digit_bounds y t ht
  have hk := totalBeatIndex_lt y t ht
  have hmsB : BeatIndex.msBF y t < 1000000 := by
    obtain ⟨_, _, _, _, e5, _⟩ := fields_agree y t ht
    have := msF_lt y t
    omega
  exact ⟨⟨Cascade.resultF y t, Cascade.encodeF_spec y t hp hb,
      shape_true_F y t hy1 hy2 ht, msF_lt y t⟩,
    ⟨BeatIndex.resultBF y t, BeatIndex.encodeBF_spec y t (by omega) (by omega),
      shape_true_BF y t hy1 hy2 ht, hmsB⟩⟩

/-- Witness for C5 at year 2025, instant 0. -/
theorem C5_format_validity_witness :
    (∃ R, Cascade.encode 2025 0 = Except.ok R ∧ canonShape R.canonical = true ∧
      R.msOffsetInBeat < 1000000) ∧
    (∃ R, BeatIndex.encode 2025 0 = Except.ok R ∧ canonShape R.canonical = true ∧
      R.msOffsetInBeat < 1000000) :=
  C5_format_validity 2025 0 (by decide) (by decide) (by decide)

/-- Counterexample for C5 as stated: the valid instant at the start of year
999 encodes to `999_A0A0_000000`, whose year field has only three digits, so
the canonical string does not match the regex. -/
theorem C5_counterexample :
    Cascade.encode 999 0 = Except.ok
      ⟨"999_A0A0_000000", 999, 0, 0, 0, 0, 0, 'A', 'A', "A0:A0", 0, 121292307⟩ ∧
    canonShape "999_A0A0_000000" = false ∧
    BeatIndex.encode 999 0 = Except.ok
      ⟨"999_A0A0_000000", 999, 0, 0, 0, 0, 0, 'A', 'A', "A0:A0", 0, 121292307⟩ :=
  ⟨rfl, rfl, rfl⟩

/-- Claim C6 (corrected: under the beat-index implementation, the 400
evenly spaced instants at multiples of 1/400th of the year do round-trip
exactly, but they are not the only exact instants — whole beats round-trip
exactly, see the counterexample — and under the division-cascade
implementation most of these aligned points are not exact). -/
theorem C6_aligned_exact (y j : Nat) (hy1 : 1000 ≤ y) (hy2 : y ≤ 9999)
    (hj : j < 400) :
    ∃ R, BeatIndex.encode y (j * (yearTotalMs y / 400)) = Except.ok R ∧
      BeatIndex.decode R.canonical =
        Except.ok (y, j * (yearTotalMs y / 400)) := by
  have ht := aligned_t_lt y j hj
  have hk := totalBeatIndex_lt y (j * (yearTotalMs y / 400)) ht
  exact ⟨BeatIndex.resultBF y (j * (yearTotalMs y / 400)),
    BeatIndex.encodeBF_spec y (j * (yearTotalMs y / 400)) (by omega) (by omega),
    aligned_exact y j hy1 hy2 hj⟩

/-- Witness for C6 at year 2025 and the first aligned point after the year
start (j = 1, i.e. 78,840,000 ms into the year). -/
theorem C6_aligned_exact_witness :
    ∃ R, BeatIndex.encode 2025 (1 * (yearTotalMs 2025 / 400)) = Except.ok R ∧
      BeatIndex.decode R.canonical =
        Except.ok (2025, 1 * (yearTotalMs 2025 / 400)) :=
  C6_aligned_exact 2025 1 (by decide) (by decide) (by decide)

/-- Counterexample for C6 as stated: the instant 1 ms into year 2025 is not
one of the 400 evenly spaced points (1 is not a multiple of 1/400th of the
year), yet it round-trips exactly under both implementations. -/
theorem C6_counterexample :
    Cascade.encode 2025 1 = Except.ok
      ⟨"2025_A0A0_000001", 2025, 0, 0, 0, 0, 1, 'A', 'A', "A0:A0", 0,
        121292307⟩ ∧
    BeatIndex.encode 2025 1 = Except.ok
      ⟨"2025_A0A0_000001", 2025, 0, 0, 0, 0, 1, 'A', 'A', "A0:A0", 0,
        121292307⟩ ∧
    Cascade.decode "2025_A0A0_000001" = Except.ok (2025, 1) ∧
    BeatIndex.decode "2025_A0A0_000001" = Except.ok (2025, 1) ∧
    1 % (yearTotalMs 2025 / 400) ≠ 0 :=
  ⟨rfl, rfl, rfl, rfl, by decide⟩

/-- Claim C7 (corrected): for a valid instant of a calendar year ≥ 100 the
computed period and bar indices lie in 0–25 and both encodes succeed, so
the defensive invalid-index error of `_toBase26` is unreachable there.  But
for every valid instant of a calendar year 0–99 the ECMAScript
two-digit-year rule of `Date.UTC` makes the computed offset negative, the
period index negative, and both implementations throw the invalid-index
error: the defensive check is reachable. -/
theorem C7_no_invalid_index (y t : Nat) (ht : t < yearTotalMs y) :
    (100 ≤ y →
      (∃ R, Cascade.encodeDate y t = Except.ok R) ∧
      ∃ R, BeatIndex.encodeDate y t = Except.ok R) ∧
    (y ≤ 99 →
      Cascade.encodeDate y t =
        Except.error "Invalid index for Base26 single char conversion." ∧
      BeatIndex.encodeDate y t = Except.error "Invalid index for Base26.") := by
  constructor
  · intro hy
    obtain ⟨hp, ha, hb, htt⟩ := cascade_digit_bounds y t ht
    have hk := totalBeatIndex_lt y t ht
    rw [Cascade.encodeDateF_of_ge y t hy,
      BeatIndex.encodeDateBF_of_ge y t hy (by omega) (by omega)]
    exact ⟨⟨Cascade.resultF y t, Cascade.encodeF_spec y t hp hb⟩,
      ⟨BeatIndex.resultBF y t, BeatIndex.encodeBF_spec y t (by omega) (by omega)⟩⟩
  · intro hy
    exact ⟨Cascade.encodeDateF_err y t hy ht, BeatIndex.encodeDateBF_err y t hy ht⟩

/-- Witness for C7: the ok branch at (2025, 0) and the error branch at
(50, 0). -/
theorem C7_no_invalid_index_witness :
    ((∃ R, Cascade.encodeDate 2025 0 = Except.ok R) ∧
      ∃ R, BeatIndex.encodeDate 2025 0 = Except.ok R) ∧
    (Cascade.encodeDate 50 0 =
        Except.error "Invalid index for Base26 single char conversion." ∧
      BeatIndex.encodeDate 50 0 = Except.error "Invalid index for Base26.") :=
  ⟨(C7_no_invalid_index 2025 0 (by decide)).1 (by decide),
    (C7_no_invalid_index 50 0 (by decide)).2 (by decide)⟩

/-- Counterexample to C7 as stated: midnight January 1 of year 50 is a
valid instant (`0 < yearTotalMs 50`), yet both encodes throw the defensive
invalid-index error, because `Date.UTC(50, 0, 1)` lies in year 1950 and the
computed millisecond offset is hugely negative. -/
theorem C7_counterexample :
    0 < yearTotalMs 50 ∧
    Cascade.encodeDate 50 0 =
      Except.error "Invalid index for Base26 single char conversion." ∧
    BeatIndex.encodeDate 50 0 = Except.error "Invalid index for Base26." :=
  ⟨by decide, rfl, rfl⟩

/-- Claim C8 (corrected): for every calendar year ≥ 100, encoding the first
instant of the year (midnight January 1) yields beat index 0, a unit block
`A0A0` and millisecond suffix `000000`: the canonical string is the year
digits followed by `_A0A0_000000`, under both implementations.  For years
0–99 the source throws the defensive invalid-index error instead, because
`Date.UTC`'s two-digit-year rule makes the computed offset negative (see
the counterexample). -/
theorem C8_year_boundary (y : Nat) (hy : 100 ≤ y) :
    ∃ RA RB, Cascade.encodeDate y 0 = Except.ok RA ∧
      BeatIndex.encodeDate y 0 = Except.ok RB ∧
      RA.canonical = String.mk (natDecimal y) ++ "_A0A0_000000" ∧
      RB.canonical = String.mk (natDecimal y) ++ "_A0A0_000000" ∧
      BeatIndex.totalBeatIndex y 0 = 0 ∧
      RA.period = 0 ∧ RA.arc = 0 ∧ RA.bar = 0 ∧ RA.beat = 0 ∧
      RA.msOffsetInBeat = 0 ∧ RB.period = 0 ∧ RB.arc = 0 ∧ RB.bar = 0 ∧
      RB.beat = 0 ∧ RB.msOffsetInBeat = 0 := by
  obtain ⟨hz1, hz2, hz3, hz4, hz5⟩ := zero_fields_F y
  obtain ⟨hk0, hms0⟩ := zero_fields_BF y
  rw [Cascade.encodeDateF_of_ge y 0 hy,
    BeatIndex.encodeDateBF_of_ge y 0 hy (by rw [hk0]; omega) (by rw [hk0]; omega)]
  have hcaF : (Cascade.resultF y 0).canonical =
      String.mk (natDecimal y) ++ "_A0A0_000000" := by
    rw [canonical_list y 0 (by rw [hz2]; omega) (by rw [hz4]; omega), hz1, hz2, hz3, hz4, hz5]
    have hsuf : ('_' :: letterChar 0 :: digitChar 0 :: letterChar 0 ::
        digitChar 0 :: '_' :: padStart 6 '0' (natDecimal 0)) =
        String.data "_A0A0_000000" := by decide
    rw [hsuf]
    rfl
  have hcaB : (BeatIndex.resultBF y 0).canonical =
      String.mk (natDecimal y) ++ "_A0A0_000000" := by
    show String.mk (natDecimal y ++ '_' ::
        letterChar (BeatIndex.totalBeatIndex y 0 / 2600) ::
        natDecimal (BeatIndex.totalBeatIndex y 0 % 2600 / 260) ++
        letterChar (BeatIndex.totalBeatIndex y 0 % 2600 % 260 / 10) ::
        natDecimal (BeatIndex.totalBeatIndex y 0 % 2600 % 260 % 10) ++ '_' ::
        padStart 6 '0' (natDecimal (BeatIndex.msBF y 0))) =
      String.mk (natDecimal y) ++ "_A0A0_000000"
    rw [hk0, hms0]
    norm_num
    have hsuf : ('_' :: letterChar 0 :: (natDecimal 0 ++ letterChar 0 ::
        (natDecimal 0 ++ '_' :: padStart 6 '0' (natDecimal 0)))) =
        String.data "_A0A0_000000" := by decide
    rw [hsuf]
    rfl
  refine ⟨Cascade.resultF y 0, BeatIndex.resultBF y 0,
    Cascade.encodeF_spec y 0 (by rw [hz1]; omega) (by rw [hz3]; omega),
    BeatIndex.encodeBF_spec y 0 (by rw [hk0]; omega) (by rw [hk0]; omega),
    hcaF, hcaB, hk0, hz1, hz2, hz3, hz4, hz5, ?_, ?_, ?_, ?_, ?_⟩
  · show BeatIndex.totalBeatIndex y 0 / 2600 = 0
    rw [hk0]
  · show BeatIndex.totalBeatIndex y 0 % 2600 / 260 = 0
    rw [hk0]
  · show BeatIndex.totalBeatIndex y 0 % 2600 % 260 / 10 = 0
    rw [hk0]
  · show BeatIndex.totalBeatIndex y 0 % 2600 % 260 % 10 = 0
    rw [hk0]
  · exact hms0

/-- Witness for C8 at year 2025. -/
theorem C8_year_boundary_witness :
    ∃ RA RB, Cascade.encodeDate 2025 0 = Except.ok RA ∧
      BeatIndex.encodeDate 2025 0 = Except.ok RB ∧
      RA.canonical = String.mk (natDecimal 2025) ++ "_A0A0_000000" ∧
      RB.canonical = String.mk (natDecimal 2025) ++ "_A0A0_000000" ∧
      BeatIndex.totalBeatIndex 2025 0 = 0 ∧
      RA.period = 0 ∧ RA.arc = 0 ∧ RA.bar = 0 ∧ RA.beat = 0 ∧
      RA.msOffsetInBeat = 0 ∧ RB.period = 0 ∧ RB.arc = 0 ∧ RB.bar = 0 ∧
      RB.beat = 0 ∧ RB.msOffsetInBeat = 0 :=
  C8_year_boundary 2025 (by decide)

/-- Counterexample to C8 as stated: for calendar year 99 encoding midnight
January 1 does not produce `99_A0A0_000000` — both implementations throw
the defensive invalid-index error, because `Date.UTC(99, 0, 1)` lies in
year 1999. -/
theorem C8_counterexample :
    Cascade.encodeDate 99 0 =
      Except.error "Invalid index for Base26 single char conversion." ∧
    BeatIndex.encodeDate 99 0 = Except.error "Invalid index for Base26." :=
  ⟨rfl, rfl⟩

/-- Claim C9 (confirmed): encode∘decode is not the identity on
regex-matching strings: `2025_A0A0_999999` matches the regex and addresses
beat 0, but its millisecond field 999,999 exceeds the beat width, so both
decodes accept it (no width check) and return an instant lying in beat 2,
which re-encodes — through the full `Date.UTC` path — to the different
string `2025_A0A2_066981`. -/
theorem C9_reencode_differs :
    canonShape "2025_A0A0_999999" = true ∧
    Cascade.decode "2025_A0A0_999999" = Except.ok (2025, 999999) ∧
    BeatIndex.decode "2025_A0A0_999999" = Except.ok (2025, 999999) ∧
    BeatIndex.totalBeatIndex 2025 999999 = 2 ∧
    (∃ R, Cascade.encodeDate 2025 999999 = Except.ok R ∧
      R.canonical = "2025_A0A2_066981") ∧
    (∃ R, BeatIndex.encodeDate 2025 999999 = Except.ok R ∧
      R.canonical = "2025_A0A2_066981") ∧
    ("2025_A0A2_066981" : String) ≠ "2025_A0A0_999999" :=
  ⟨rfl, rfl, rfl, rfl, ⟨_, rfl, rfl⟩, ⟨_, rfl, rfl⟩, by decide⟩

/-- Claim C10 (confirmed): whenever decoding the encoded canonical string
of a valid instant succeeds, the decoded instant is never later than the
original: it equals the original minus a nonnegative truncation of at most
1 ms, under both implementations. -/
theorem C10_never_later (y t t2 : Nat) (ht : t < yearTotalMs y) :
    (∀ R, Cascade.encode y t = Except.ok R →
      Cascade.decode R.canonical = Except.ok (y, t2) →
      t2 ≤ t ∧ t - t2 ≤ 1) ∧
    (∀ R, BeatIndex.encode y t = Except.ok R →
      BeatIndex.decode R.canonical = Except.ok (y, t2) →
      t2 ≤ t ∧ t - t2 ≤ 1) := by
  constructor
  · intro R hR hdec
    obtain ⟨hp, ha, hb, htt⟩ := cascade_digit_bounds y t ht
    rw [Cascade.encodeF_spec y t hp hb] at hR
    injection hR with hReq
    subst hReq
    rcases Nat.lt_or_ge y 1000 with hy | hy1
    · exfalso
      have hsh := shape_false_of_bad_year_F y t ht (Or.inl hy)
      have herr := ((decode_of_shape (Cascade.resultF y t).canonical).1 hsh).1
      rw [herr] at hdec
      exact Except.noConfusion hdec
    rcases Nat.lt_or_ge 9999 y with hy | hy2
    · exfalso
      have hsh := shape_false_of_bad_year_F y t ht (Or.inr hy)
      have herr := ((decode_of_shape (Cascade.resultF y t).canonical).1 hsh).1
      rw [herr] at hdec
      exact Except.noConfusion hdec
    · obtain ⟨t3, hdec2, hle, hgap⟩ := roundtrip_cascade y t hy1 hy2 ht
      rw [hdec2] at hdec
      injection hdec with hpair
      injection hpair with hy3 ht3
      omega
  · intro R hR hdec
    have hk := totalBeatIndex_lt y t ht
    rw [BeatIndex.encodeBF_spec y t (by omega) (by omega)] at hR
    injection hR with hReq
    subst hReq
    rcases Nat.lt_or_ge y 1000 with hy | hy1
    · exfalso
      have hsh := shape_false_of_bad_year_BF y t ht (Or.inl hy)
      have herr := ((decode_of_shape (BeatIndex.resultBF y t).canonical).1 hsh).2
      rw [herr] at hdec
      exact Except.noConfusion hdec
    rcases Nat.lt_or_ge 9999 y with hy | hy2
    · exfalso
      have hsh := shape_false_of_bad_year_BF y t ht (Or.inr hy)
      have herr := ((decode_of_shape (BeatIndex.resultBF y t).canonical).1 hsh).2
      rw [herr] at hdec
      exact Except.noConfusion hdec
    · obtain ⟨t3, hdec2, hle, hgap⟩ := roundtrip_beatindex y t hy1 hy2 ht
      rw [hdec2] at hdec
      injection hdec with hpair
      injection hpair with hy3 ht3
      omega

/-- Witness for C10 at year 2025, instant 1, decoded instant 1. -/
theorem C10_never_later_witness : (1:Nat) ≤ 1 ∧ (1:Nat) - 1 ≤ 1 :=
  (C10_never_later 2025 1 1 (by decide)).1
    ⟨"2025_A0A0_000001", 2025, 0, 0, 0, 0, 1, 'A', 'A', "A0:A0", 0, 121292307⟩
    rfl rfl
